import Mathlib

/-!
# rmq-stream-viewer: bounded read, normalization, configuration, discovery

A shallow embedding of `Connection.ReadMessagesFromVHost`
(`internal/rabbitmq/client.go`) and of the consumer callback it installs, of
the configuration checks of `internal/config/config.go`, of the connection
manager and the discovery methods of `internal/rabbitmq/client.go`, and of
`Handler.GetMessages` (`internal/api/handlers.go`).

Modelling conventions

* Go `string` is `String`; `[]byte` is `List Nat` (one entry per byte). A Go
  string is a sequence of bytes: `Value.str s` is the string whose bytes are the
  UTF-8 encoding of `s`, and `Value.text b` is the string whose bytes are `b`,
  which is what the conversion `string(b)` of a byte slice yields.
* Go `int` / `int64` are `Int`, `uint64` / `uint32` / `uint8` are `Nat`;
  the conversions between signed and unsigned (`uint64(GetOffset())`,
  `int64(offset)`) are made explicit with `% 2^64`.
* A Go `map[string]T` is an association list without duplicate keys
  (`GoMap T`): `set` overwrites an existing key in place and appends a new one.
* A map that the code only ranges over (`message.Annotations`, ...) is
  `Option (List (key × value))`: `none` is the nil map and the list gives the
  entries in the order the `range` loop visits them.
* The goroutine interleaving of one call is summarised by a `ReadScenario`:
  the results of the two fallible library calls, the callback invocations that
  completed before the final `mu.Lock()`, and the `select` case that was taken.
* The race between the callback and the waiting caller on the channel `done`
  is a sequence of `ReadEvent`s acting on a `WaitState`.
* A `range` over the connection map is given by the sequence of connections
  in the order they are visited, each paired with what its external call
  returns; the statements hold for every such order.
* Formatted texts go through `Sprintf`, a model of `fmt.Sprintf` restricted to
  the verbs `%s`, `%d` and `%v` (of a slice of errors).
-/

namespace RmqStreamViewer

/-! ## Go values and maps -/

/-- Go `time.Time`, reduced to the two components `IsZero` inspects. -/
structure Time where
  sec : Int
  nsec : Int
  deriving DecidableEq, Repr

/-- Method `time.Time.IsZero`: `t.sec() == 0 && t.nsec() == 0`. -/
def Time.IsZero (t : Time) : Bool := t.sec == 0 && t.nsec == 0

/-- A dynamically typed Go value (`interface{}`) that the callback copies
without inspecting it, apart from the comparison with `nil`. -/
inductive Value where
  | nil
  | bool (b : Bool)
  | int (i : Int)
  | uint8 (n : Nat)
  | uint32 (n : Nat)
  | duration (d : Int)
  | str (s : String)
  | text (utf8 : List Nat)
  | bytes (b : List Nat)
  | time (t : Time)
  deriving DecidableEq, Repr

/-- A Go `map[string]T`. -/
abbrev GoMap (α : Type) := List (String × α)

/-- Map read `m[k]` (with the comma-ok result as an `Option`). -/
def GoMap.get {α : Type} : GoMap α → String → Option α
  | [], _ => none
  | (k', v) :: rest, k => if k' = k then some v else GoMap.get rest k

/-- Map write `m[k] = v`. -/
def GoMap.set {α : Type} : GoMap α → String → α → GoMap α
  | [], k, v => [(k, v)]
  | (k', v') :: rest, k, v =>
    if k' = k then (k, v) :: rest else (k', v') :: GoMap.set rest k v

/-- The keys of a map. -/
def GoMap.keys {α : Type} (m : GoMap α) : List String := m.map Prod.fst

/-- A guarded map write `if c { m[k] = v }`. -/
def GoMap.setIf {α : Type} (c : Bool) (m : GoMap α) (k : String) (v : α) : GoMap α :=
  if c then m.set k v else m

/-- What is stored in `Message.Properties` (a `map[string]interface{}`):
either a plain value or one of the nested `map[string]interface{}`. -/
inductive PropValue where
  | val (v : Value)
  | map (m : GoMap Value)
  deriving DecidableEq, Repr

/-! ## The raw AMQP message (fields read by the callback) -/

/-- Go `amqp.MessageProperties`. -/
structure MessageProperties where
  MessageID : Value
  UserID : List Nat
  To : String
  Subject : String
  ReplyTo : String
  CorrelationID : Value
  ContentType : String
  ContentEncoding : String
  AbsoluteExpiryTime : Time
  CreationTime : Time
  GroupID : String
  GroupSequence : Nat
  ReplyToGroupID : String
  deriving DecidableEq, Repr

/-- Go `amqp.MessageHeader`. -/
structure MessageHeader where
  Durable : Bool
  Priority : Nat
  TTL : Int
  FirstAcquirer : Bool
  DeliveryCount : Nat
  deriving DecidableEq, Repr

/-- A key of `amqp.Annotations` (`map[interface{}]interface{}`): a symbol or
an integer. -/
inductive AnnKey where
  | sym (s : String)
  | num (i : Int)
  deriving DecidableEq, Repr

/-- The text `fmt.Sprintf("%v", k)` of an annotation key. -/
def keyText : AnnKey → String
  | .sym s => s
  | .num i => toString i

/-- Go `amqp.Annotations`, with its iteration order. -/
abbrev AmqpAnnotations := Option (List (AnnKey × Value))

/-- Go `amqp.Message`; `Data` is the result of `GetData()`. -/
structure AmqpMessage where
  Properties : Option MessageProperties
  Header : Option MessageHeader
  Annotations : AmqpAnnotations
  DeliveryAnnotations : AmqpAnnotations
  ApplicationProperties : Option (List (String × Value))
  Footer : AmqpAnnotations
  Data : List Nat
  deriving DecidableEq, Repr

/-- Conversion `string(b)` of a byte slice: the string with the same bytes. -/
def stringOfBytes (b : List Nat) : Value := .text b

/-- The bytes of the text `s`: its UTF-8 encoding. -/
def utf8Bytes (s : String) : List Nat :=
  (s.data.flatMap String.utf8EncodeChar).map UInt8.toNat

/-- The bytes of a value that is a Go string. -/
def Value.stringBytes : Value → Option (List Nat)
  | .str s => some (utf8Bytes s)
  | .text b => some b
  | _ => none

/-- The bytes of a stored value that is a Go string. -/
def PropValue.stringBytes : PropValue → Option (List Nat)
  | .val v => v.stringBytes
  | .map _ => none

/-! ## Types of `internal/rabbitmq/types.go` -/

/-- Go `rabbitmq.Message`. -/
structure Message where
  Offset : Nat
  Timestamp : Time
  Data : List Nat
  Properties : GoMap PropValue
  deriving DecidableEq, Repr

/-- Go `rabbitmq.MessageBatch`; `Messages = none` is the nil slice. -/
structure MessageBatch where
  Messages : Option (List Message)
  StartOffset : Nat
  EndOffset : Nat
  HasMore : Bool
  deriving DecidableEq, Repr

/-- A Go `error`: a leaf error or `fmt.Errorf("<text>: %w", cause)`. -/
inductive GoError where
  | base (text : String)
  | wrapped (text : String) (cause : GoError)
  deriving DecidableEq, Repr

/-! ## `ReadMessagesFromVHost`: limit clamp -/

/-- Lines 423-428: the effective limit. -/
def clampLimit (limit : Int) : Int :=
  let limit := if limit ≤ 0 then 10 else limit
  if limit > 500 then 500 else limit

/-! ## The consumer callback: property extraction (lines 459-572) -/

/-- Lines 463-503: the standard AMQP message properties. -/
def addProperties (message : AmqpMessage) (props : GoMap PropValue) : GoMap PropValue :=
  match message.Properties with
  | none => props
  | some p =>
    let props := GoMap.setIf (p.MessageID != Value.nil) props "message_id" (.val p.MessageID)
    let props := GoMap.setIf (p.CorrelationID != Value.nil) props "correlation_id"
      (.val p.CorrelationID)
    let props := GoMap.setIf (p.ContentType != "") props "content_type" (.val (.str p.ContentType))
    let props := GoMap.setIf (p.ContentEncoding != "") props "content_encoding"
      (.val (.str p.ContentEncoding))
    let props := GoMap.setIf (p.ReplyTo != "") props "reply_to" (.val (.str p.ReplyTo))
    let props := GoMap.setIf (p.Subject != "") props "subject" (.val (.str p.Subject))
    let props := GoMap.setIf (p.To != "") props "to" (.val (.str p.To))
    let props := GoMap.setIf (decide (p.UserID.length > 0)) props "user_id"
      (.val (stringOfBytes p.UserID))
    let props := GoMap.setIf (p.GroupID != "") props "group_id" (.val (.str p.GroupID))
    let props := GoMap.setIf (p.ReplyToGroupID != "") props "reply_to_group_id"
      (.val (.str p.ReplyToGroupID))
    let props := GoMap.setIf (p.GroupSequence != 0) props "group_sequence"
      (.val (.uint32 p.GroupSequence))
    let props := GoMap.setIf (!p.CreationTime.IsZero) props "creation_time"
      (.val (.time p.CreationTime))
    let props := GoMap.setIf (!p.AbsoluteExpiryTime.IsZero) props "absolute_expiry_time"
      (.val (.time p.AbsoluteExpiryTime))
    props

/-- Lines 506-522: the AMQP header. -/
def addHeader (message : AmqpMessage) (props : GoMap PropValue) : GoMap PropValue :=
  match message.Header with
  | none => props
  | some h =>
    let props := GoMap.setIf h.Durable props "durable" (.val (.bool h.Durable))
    let props := GoMap.setIf (h.Priority != 0) props "priority" (.val (.uint8 h.Priority))
    let props := GoMap.setIf (h.TTL != 0) props "ttl" (.val (.duration h.TTL))
    let props := GoMap.setIf h.FirstAcquirer props "first_acquirer" (.val (.bool h.FirstAcquirer))
    let props := GoMap.setIf (h.DeliveryCount != 0) props "delivery_count"
      (.val (.uint32 h.DeliveryCount))
    props

/-- The test of lines 532 and 547 on the text of a key. -/
def isRoutingKey (keyStr : String) : Bool :=
  keyStr == "x-routing-key" || keyStr == "routing-key"

/-- One iteration of the loops of lines 527-535 and 542-550, on the pair
(nested map under construction, `props`). -/
def scanStep (st : GoMap Value × GoMap PropValue) (kv : AnnKey × Value) :
    GoMap Value × GoMap PropValue :=
  let keyStr := keyText kv.1
  let annotations := st.1.set keyStr kv.2
  let props := if isRoutingKey keyStr then st.2.set "routing_key" (.val kv.2) else st.2
  (annotations, props)

/-- The whole `range` loop over one annotation container. -/
def scanAnnotations (entries : List (AnnKey × Value)) (props : GoMap PropValue) :
    GoMap Value × GoMap PropValue :=
  entries.foldl scanStep ([], props)

/-- Lines 525-537: message annotations. -/
def addAnnotations (message : AmqpMessage) (props : GoMap PropValue) : GoMap PropValue :=
  match message.Annotations with
  | none => props
  | some entries =>
    if entries.length > 0 then
      let r := scanAnnotations entries props
      r.2.set "message_annotations" (.map r.1)
    else props

/-- Lines 540-552: delivery annotations. -/
def addDeliveryAnnotations (message : AmqpMessage) (props : GoMap PropValue) :
    GoMap PropValue :=
  match message.DeliveryAnnotations with
  | none => props
  | some entries =>
    if entries.length > 0 then
      let r := scanAnnotations entries props
      r.2.set "delivery_annotations" (.map r.1)
    else props

/-- Lines 555-563: application properties. -/
def addApplicationProperties (message : AmqpMessage) (props : GoMap PropValue) :
    GoMap PropValue :=
  match message.ApplicationProperties with
  | none => props
  | some entries =>
    let appProps : GoMap Value := entries.foldl (fun acc kv => acc.set kv.1 kv.2) []
    if appProps.length > 0 then props.set "application_properties" (.map appProps) else props

/-- Lines 566-572: footer. -/
def addFooter (message : AmqpMessage) (props : GoMap PropValue) : GoMap PropValue :=
  match message.Footer with
  | none => props
  | some entries =>
    if entries.length > 0 then
      let footer : GoMap Value := entries.foldl (fun acc kv => acc.set (keyText kv.1) kv.2) []
      props.set "footer" (.map footer)
    else props

/-- Lines 459-572: the normalized property mapping of a raw message. -/
def extractProps (message : AmqpMessage) : GoMap PropValue :=
  let props : GoMap PropValue := []
  let props := addProperties message props
  let props := addHeader message props
  let props := addAnnotations message props
  let props := addDeliveryAnnotations message props
  let props := addApplicationProperties message props
  let props := addFooter message props
  props

/-! ## The consumer callback: accumulation (lines 451-589) -/

/-- Conversion `uint64(x)` of an `int64`. -/
def toUint64 (x : Int) : Nat := (x % (2 : Int) ^ 64).toNat

/-- One invocation of the consumer callback: the raw message together with
what the callback reads from its environment. -/
structure Delivery where
  consumerOffset : Int
  now : Time
  message : AmqpMessage
  deriving DecidableEq, Repr

/-- Lines 574-579: the `Message` built for a delivery. -/
def buildMessage (d : Delivery) : Message :=
  { Offset := toUint64 d.consumerOffset
    Timestamp := d.now
    Data := d.message.Data
    Properties := extractProps d.message }

/-- The callback body on the accumulator: the new accumulator, and whether the
non-blocking send on `done` of lines 583-588 was attempted. -/
def consumerCallback (limit : Int) (messages : List Message) (d : Delivery) :
    List Message × Bool :=
  if (messages.length : Int) ≥ limit then (messages, false)
  else
    let messages := messages ++ [buildMessage d]
    (messages, decide ((messages.length : Int) ≥ limit))

/-- The accumulator after a sequence of callback invocations. -/
def accumulate (limit : Int) (deliveries : List Delivery) : List Message :=
  deliveries.foldl (fun messages d => (consumerCallback limit messages d).1) []

/-! ## `ReadMessagesFromVHost`: waiting and the result (lines 430-632) -/

/-- The case of the `select` of lines 599-610 that is taken. -/
inductive WaitEvent where
  | done
  | errChan (err : GoError)
  | timeout
  | ctxDone (err : GoError)
  deriving DecidableEq, Repr

/-- A release of a resource, in the order they happen. -/
inductive Release where
  | consumerClose
  | envClose
  deriving DecidableEq, Repr

/-- What the surroundings do during one call. -/
structure ReadScenario where
  envErr : Option GoError
  consumerErr : Option GoError
  deliveries : List Delivery
  event : WaitEvent
  deriving DecidableEq, Repr

/-- Lines 617-631: the batch built from the accumulator. -/
def buildBatch (offset : Nat) (limit : Int) (messages : List Message) : MessageBatch :=
  match messages with
  | [] => { Messages := some [], StartOffset := offset, EndOffset := offset, HasMore := false }
  | first :: rest =>
    { Messages := some messages
      StartOffset := first.Offset
      EndOffset := ((first :: rest).getLast (List.cons_ne_nil first rest)).Offset
      HasMore := decide (((first :: rest).length : Int) = limit) }

/-- Method `Connection.ReadMessagesFromVHost`: the returned pair
(batch or error) and the resources released before returning. -/
def ReadMessagesFromVHost (vhost : String) (offset : Nat) (limit : Int) (sc : ReadScenario) :
    Except GoError MessageBatch × List Release :=
  let limit := clampLimit limit
  match sc.envErr with
  | some err => (.error (.wrapped ("failed to create environment for vhost " ++ vhost) err), [])
  | none =>
    match sc.consumerErr with
    | some err => (.error (.wrapped "failed to create consumer" err), [.envClose])
    | none =>
      match sc.event with
      | .errChan err => (.error err, [.consumerClose, .envClose])
      | .ctxDone err => (.error err, [.consumerClose, .envClose])
      | .done | .timeout =>
        (.ok (buildBatch offset limit (accumulate limit sc.deliveries)),
          [.consumerClose, .envClose])

/-! ## Derived quantities and sample inputs used in the statements -/

/-- Smallest offset among the messages `first :: rest`. -/
def minOffset (first : Message) (rest : List Message) : Nat :=
  rest.foldl (fun lo m => min lo m.Offset) first.Offset

/-- Largest offset among the messages `first :: rest`. -/
def maxOffset (first : Message) (rest : List Message) : Nat :=
  rest.foldl (fun hi m => max hi m.Offset) first.Offset

/-- A raw message without any metadata and without payload. -/
def bareMessage : AmqpMessage :=
  { Properties := none, Header := none, Annotations := none, DeliveryAnnotations := none,
    ApplicationProperties := none, Footer := none, Data := [] }

/-- A delivery of `bareMessage` while the consumer reports offset `off`. -/
def deliveryAt (off : Int) : Delivery :=
  { consumerOffset := off, now := { sec := 0, nsec := 0 }, message := bareMessage }

/-- A raw message whose only metadata is the user id with the given bytes. -/
def userMessage (userID : List Nat) : AmqpMessage :=
  { bareMessage with
    Properties := some
      { MessageID := .nil, UserID := userID, To := "", Subject := "", ReplyTo := "",
        CorrelationID := .nil, ContentType := "", ContentEncoding := "",
        AbsoluteExpiryTime := { sec := 0, nsec := 0 }, CreationTime := { sec := 0, nsec := 0 },
        GroupID := "", GroupSequence := 0, ReplyToGroupID := "" } }

/-- The raw message whose only metadata is the application property
`counter` with value 42, carrying the payload `data`. -/
def counterMessage (data : List Nat) : AmqpMessage :=
  { bareMessage with ApplicationProperties := some [("counter", .int 42)], Data := data }

/-- The container `c` stores the value `v` under a key whose text is
`x-routing-key` or `routing-key`. -/
def StoresRoutingKey (c : AmqpAnnotations) (v : Value) : Prop :=
  ∃ entries, c = some entries ∧
    ∃ kv ∈ entries, (keyText kv.1 = "x-routing-key" ∨ keyText kv.1 = "routing-key") ∧ kv.2 = v

/-- A raw message whose message annotations and delivery annotations both
carry a routing key. -/
def routedMessage : AmqpMessage :=
  { bareMessage with
    Annotations := some [(.sym "x-routing-key", .str "a.b")]
    DeliveryAnnotations := some [(.num 7, .int 1), (.sym "routing-key", .str "c.d")] }

/-- The entry prescribed for a standard field: absent when the source
container is nil or the field fails `present`, and otherwise the source
value. -/
def specField {σ : Type} (container : Option σ) (present : σ → Prop) [DecidablePred present]
    (value : σ → Value) : Option PropValue :=
  match container with
  | none => none
  | some c => if present c then some (.val (value c)) else none

/-! ## `fmt.Sprintf`, for the verbs this repository uses -/

/-- Method `Error()` of an error value. -/
def GoError.Error : GoError → String
  | .base text => text
  | .wrapped text cause => text ++ ": " ++ cause.Error

/-- An operand of `fmt.Sprintf`: a string (`%s`), an integer (`%d`) or a slice
of errors (`%v`). -/
inductive FmtArg where
  | s (v : String)
  | d (v : Int)
  | errs (v : List GoError)

/-- The elements of a slice under `%v`: their texts separated by one space. -/
def joinErrors : List GoError → List Char
  | [] => []
  | e :: rest =>
    match rest with
    | [] => e.Error.data
    | _ :: _ => e.Error.data ++ ' ' :: joinErrors rest

/-- The text an operand is rendered to. -/
def FmtArg.render : FmtArg → List Char
  | .s v => v.data
  | .d v => (toString v).data
  | .errs v => '[' :: joinErrors v ++ [']']

/-- Expansion of a format: every `%` together with the verb character after
it is replaced by the next operand, every other character is copied. -/
def sprintfChars : List Char → List FmtArg → List Char
  | [], _ => []
  | c :: rest, args =>
    if c = '%' then
      match rest, args with
      | _ :: rest', a :: args' => a.render ++ sprintfChars rest' args'
      | _, _ => [c]
    else c :: sprintfChars rest args

/-- Go `fmt.Sprintf`. -/
def Sprintf (format : String) (args : List FmtArg) : String :=
  String.mk (sprintfChars format.data args)

/-! ## `internal/config/config.go` -/

/-- Go `config.ServerConfig`. -/
structure ServerConfig where
  Port : Int
  deriving DecidableEq, Repr

/-- Go `config.ConnectionConfig`. -/
structure ConnectionConfig where
  ID : String
  Name : String
  Host : String
  Port : Int
  VHost : String
  Username : String
  Password : String
  HTTPPort : Int
  StreamPort : Int
  deriving DecidableEq, Repr

/-- Go `config.Config`. -/
structure Config where
  Server : ServerConfig
  Connections : List ConnectionConfig
  deriving DecidableEq, Repr

/-- Method `ConnectionConfig.AMQPURL` (lines 35-41). -/
def ConnectionConfig.AMQPURL (c : ConnectionConfig) : String :=
  let vhost := c.VHost
  let vhost := if vhost = "" then "/" else vhost
  Sprintf "amqp://%s:%s@%s:%d/%s" [.s c.Username, .s c.Password, .s c.Host, .d c.Port, .s vhost]

/-- The loop of `Validate` (lines 79-105) from index `i` on, with the IDs seen
so far: the error returned, if any, and the connections as the loop leaves
them. -/
def validateLoop (i : Nat) (seen : List String) :
    List ConnectionConfig → Option GoError × List ConnectionConfig
  | [] => (none, [])
  | conn :: rest =>
    if conn.ID = "" then
      (some (.base (Sprintf "connection %d: ID is required" [.d i])), conn :: rest)
    else if conn.ID ∈ seen then
      (some (.base (Sprintf "connection %d: duplicate ID \x27%s\x27" [.d i, .s conn.ID])),
        conn :: rest)
    else
      let seen := conn.ID :: seen
      if conn.Host = "" then
        (some (.base (Sprintf "connection \x27%s\x27: host is required" [.s conn.ID])),
          conn :: rest)
      else if conn.Port ≤ 0 then
        (some (.base (Sprintf "connection \x27%s\x27: port must be positive" [.s conn.ID])),
          conn :: rest)
      else if conn.HTTPPort ≤ 0 then
        (some (.base (Sprintf "connection \x27%s\x27: http_port must be positive"
          [.s conn.ID])), conn :: rest)
      else if conn.Username = "" then
        (some (.base (Sprintf "connection \x27%s\x27: username is required" [.s conn.ID])),
          conn :: rest)
      else
        let conn := if conn.StreamPort ≤ 0 then { conn with StreamPort := 5552 } else conn
        let r := validateLoop (i + 1) seen rest
        (r.1, conn :: r.2)

/-- Method `Config.Validate` (lines 69-108): the returned error (`none` is
`nil`) and the configuration as the call leaves it. -/
def Config.Validate (c : Config) : Option GoError × Config :=
  if c.Server.Port ≤ 0 then (some (.base (Sprintf "server port must be positive" [])), c)
  else if c.Connections.length = 0 then
    (some (.base (Sprintf "at least one connection must be configured" [])), c)
  else
    let r := validateLoop 0 [] c.Connections
    (r.1, { c with Connections := r.2 })

/-- Function `config.Load` (lines 49-66), given what `os.ReadFile` returns and
what `yaml.Unmarshal` makes of the bytes. -/
def Load (readFile : Except GoError (List Nat))
    (unmarshal : List Nat → Except GoError Config) : Except GoError Config :=
  match readFile with
  | .error err => .error (.wrapped "failed to read config file" err)
  | .ok data =>
    match unmarshal data with
    | .error err => .error (.wrapped "failed to parse config" err)
    | .ok cfg =>
      match cfg.Validate with
      | (some err, _) => .error err
      | (none, cfg) => .ok cfg

/-- The conditions under which a configuration is valid: a positive server
port, at least one connection, non-empty pairwise distinct IDs, and for every
connection a non-empty host, positive port and HTTP port, and a non-empty
user name. -/
def Config.Acceptable (c : Config) : Prop :=
  0 < c.Server.Port ∧ c.Connections ≠ [] ∧
  (c.Connections.map ConnectionConfig.ID).Nodup ∧
  ∀ conn ∈ c.Connections, conn.ID ≠ "" ∧ conn.Host ≠ "" ∧ 0 < conn.Port ∧
    0 < conn.HTTPPort ∧ conn.Username ≠ ""

/-! ## `internal/rabbitmq`: discovery records, connections and the manager

A slice that is only built and returned (`[]Stream`, `[]VHost`) is a `List`; the
nil slice and the empty slice are both `[]`. A call returning `(slice, error)`
is an `Except`: `.error e` stands for `(nil, e)` and `.ok l` for `(l, nil)`. -/

/-- Go `rabbitmq.Stream`. -/
structure Stream where
  Name : String
  ConnectionID : String
  VHost : String
  deriving DecidableEq, Repr

/-- Go `rabbitmq.VHost`. -/
structure VHost where
  Name : String
  ConnectionID : String
  Streams : List Stream
  deriving DecidableEq, Repr

/-- Go `rabbitmq.Connection`: the fields read by the modelled methods. A value
of this type is a non-nil `*Connection`. -/
structure Connection where
  ID : String
  Name : String
  Config : ConnectionConfig
  deriving DecidableEq, Repr

/-- Go `rabbitmq.Manager`. -/
structure Manager where
  connections : GoMap Connection
  configs : List ConnectionConfig
  deriving DecidableEq, Repr

/-- Function `NewManager` (lines 35-40). -/
def NewManager (configs : List ConnectionConfig) : Manager :=
  { connections := [], configs := configs }

/-- Method `Manager.GetConnection` (lines 99-109): the returned pair, `none`
standing for `nil` in either component. -/
def Manager.GetConnection (m : Manager) (id : String) : Option Connection × Option GoError :=
  match m.connections.get id with
  | none => (none, some (.base (Sprintf "connection not found: %s" [.s id])))
  | some conn => (some conn, none)

/-- An entry of the queue list decoded from the management API; `QueueType` is
the field `Type` of the source. -/
structure ApiQueue where
  Name : String
  VHost : String
  QueueType : String
  deriving DecidableEq, Repr

/-- What happens to one GET on the management API, up to the decoding of the
body into a list of `α`: the request cannot be built, the transport fails, the
status is not 200 (`body` is then the text `string(body)` of the response
body), the body does not decode, or it decodes. -/
inductive ApiReply (α : Type) where
  | requestFailed (err : GoError)
  | transportFailed (err : GoError)
  | badStatus (code : Int) (body : String)
  | undecodable (err : GoError)
  | decoded (items : List α)
  deriving DecidableEq, Repr

/-- Method `Connection.ListStreamsInVHost` (lines 202-245), given the reply to
its request. -/
def Connection.ListStreamsInVHost (c : Connection) (_vhost : String)
    (reply : ApiReply ApiQueue) : Except GoError (List Stream) :=
  match reply with
  | .requestFailed err => .error err
  | .transportFailed err => .error (.wrapped "failed to query management API" err)
  | .badStatus code body =>
    .error (.base (Sprintf "management API returned %d: %s" [.d code, .s body]))
  | .undecodable err => .error (.wrapped "failed to decode response" err)
  | .decoded apiQueues =>
    .ok (apiQueues.foldl (fun streams q =>
      if q.QueueType = "stream" then
        streams ++ [{ Name := q.Name, ConnectionID := c.ID, VHost := q.VHost }]
      else streams) [])

/-- Method `Connection.ListStreams` (lines 248-298), given the reply to its
request. -/
def Connection.ListStreams (c : Connection) (reply : ApiReply ApiQueue) :
    Except GoError (List Stream) :=
  match reply with
  | .requestFailed err => .error err
  | .transportFailed err => .error (.wrapped "failed to query management API" err)
  | .badStatus code body =>
    .error (.base (Sprintf "management API returned %d: %s" [.d code, .s body]))
  | .undecodable err => .error (.wrapped "failed to decode response" err)
  | .decoded apiQueues =>
    .ok (apiQueues.foldl (fun streams q =>
      if q.QueueType = "stream" then
        streams ++ [{ Name := q.Name, ConnectionID := c.ID, VHost := q.VHost }]
      else streams) [])

/-- Method `Connection.ListVHosts` (lines 153-199), given the reply to the
vhost request; every decoded vhost comes with the reply that the queue request
made for it receives. -/
def Connection.ListVHosts (c : Connection) (reply : ApiReply (String × ApiReply ApiQueue)) :
    Except GoError (List VHost) :=
  match reply with
  | .requestFailed err => .error err
  | .transportFailed err => .error (.wrapped "failed to query management API" err)
  | .badStatus code body =>
    .error (.base (Sprintf "management API returned %d: %s" [.d code, .s body]))
  | .undecodable err => .error (.wrapped "failed to decode response" err)
  | .decoded apiVHosts =>
    .ok (apiVHosts.foldl (fun vhosts v =>
      match c.ListStreamsInVHost v.1 v.2 with
      | .error _ => vhosts
      | .ok streams => vhosts ++ [{ Name := v.1, ConnectionID := c.ID, Streams := streams }])
      [])

/-- The loop of `Manager.ListVHosts` (lines 123-129) over the connections in
the order the `range` visits them, each with the reply its call receives. -/
def listVHostsLoop (allVHosts : List VHost) :
    List (Connection × ApiReply (String × ApiReply ApiQueue)) → Except GoError (List VHost)
  | [] => .ok allVHosts
  | (conn, reply) :: rest =>
    match conn.ListVHosts reply with
    | .error err => .error (.wrapped (Sprintf "failed to list vhosts for %s" [.s conn.ID]) err)
    | .ok vhosts => listVHostsLoop (allVHosts ++ vhosts) rest

/-- Method `Manager.ListVHosts` (lines 117-132). -/
def Manager.ListVHosts (visits : List (Connection × ApiReply (String × ApiReply ApiQueue))) :
    Except GoError (List VHost) :=
  listVHostsLoop [] visits

/-- The loop of `Manager.ListStreams` (lines 141-147) over the connections in
the order the `range` visits them, each with the reply its call receives. -/
def listStreamsLoop (allStreams : List Stream) :
    List (Connection × ApiReply ApiQueue) → Except GoError (List Stream)
  | [] => .ok allStreams
  | (conn, reply) :: rest =>
    match conn.ListStreams reply with
    | .error err => .error (.wrapped (Sprintf "failed to list streams for %s" [.s conn.ID]) err)
    | .ok streams => listStreamsLoop (allStreams ++ streams) rest

/-- Method `Manager.ListStreams` (lines 135-150). -/
def Manager.ListStreams (visits : List (Connection × ApiReply ApiQueue)) :
    Except GoError (List Stream) :=
  listStreamsLoop [] visits

/-- Method `Manager.Close` (lines 80-96) over the connections in the order the
`range` visits them, each with what `Environment.Close()` returns for it: the
returned error, and the connections whose environment was closed. -/
def Manager.Close (visits : List (Connection × Option GoError)) :
    Option GoError × List Connection :=
  let r := visits.foldl (fun (st : List GoError × List Connection) v =>
    match v.2 with
    | some err => (st.1 ++ [err], st.2 ++ [v.1])
    | none => (st.1, st.2 ++ [v.1])) ([], [])
  let errs := r.1
  if errs.length > 0 then
    (some (.base (Sprintf "errors closing connections: %v" [.errs errs])), r.2)
  else (none, r.2)

/-! ## `strconv`: the two parsers used by the handler -/

/-- The value of a decimal digit. -/
def digitValue (c : Char) : Option Nat :=
  if '0' ≤ c ∧ c ≤ '9' then some (c.toNat - '0'.toNat) else none

/-- The number written by a non-empty sequence of decimal digits. -/
def parseDigits : List Char → Option Nat
  | [] => none
  | c :: cs =>
    (c :: cs).foldl (fun acc ch =>
      match acc, digitValue ch with
      | some n, some d => some (n * 10 + d)
      | _, _ => none) (some 0)

/-- Go `strconv.ErrSyntax`. -/
def ErrSyntax : GoError := .base "invalid syntax"

/-- Go `strconv.ErrRange`. -/
def ErrRange : GoError := .base "value out of range"

/-- Call `strconv.ParseUint(s, 10, 64)`; the error is the cause carried by the
returned `NumError`. -/
def ParseUint (s : String) : Except GoError Nat :=
  match parseDigits s.data with
  | none => .error ErrSyntax
  | some n => if n < 2 ^ 64 then .ok n else .error ErrRange

/-- Call `strconv.Atoi(s)` for a 64-bit `int`; the error is the cause carried
by the returned `NumError`. -/
def Atoi (s : String) : Except GoError Int :=
  match s.data with
  | '-' :: rest =>
    match parseDigits rest with
    | none => .error ErrSyntax
    | some n => if n ≤ 2 ^ 63 then .ok (-(n : Int)) else .error ErrRange
  | '+' :: rest =>
    match parseDigits rest with
    | none => .error ErrSyntax
    | some n => if n < 2 ^ 63 then .ok (n : Int) else .error ErrRange
  | cs =>
    match parseDigits cs with
    | none => .error ErrSyntax
    | some n => if n < 2 ^ 63 then .ok (n : Int) else .error ErrRange

/-! ## `internal/api/handlers.go`: `GetMessages` -/

/-- The parts of the request that `GetMessages` reads: the route variables
and the parsed query (`url.Values`). -/
structure MessagesRequest where
  connection_id : String
  vhost : String
  stream_name : String
  query : GoMap (List String)
  deriving DecidableEq, Repr

/-- Method `url.Values.Get`: the first value of the key, or the empty string. -/
def queryGet (query : GoMap (List String)) (key : String) : String :=
  match query.get key with
  | some (v :: _) => v
  | _ => ""

/-- What is handed to `respondJSON`: the map built by `respondError`, or the
batch. -/
inductive ResponseBody where
  | failure (message : String) (details : GoError)
  | batch (b : MessageBatch)
  deriving DecidableEq, Repr

/-- The status passed to `WriteHeader` and the encoded value. -/
structure HttpResponse where
  status : Nat
  body : ResponseBody
  deriving DecidableEq, Repr

/-- Go `api.Handler`. -/
structure Handler where
  manager : Manager
  deriving DecidableEq, Repr

/-- Method `Handler.GetMessages` (lines 89-132); `sc` is what the surroundings
do if the read is started. -/
def Handler.GetMessages (h : Handler) (req : MessagesRequest) (sc : ReadScenario) :
    HttpResponse :=
  let offsetStr := queryGet req.query "offset"
  let limitStr := queryGet req.query "limit"
  match (if offsetStr ≠ "" then ParseUint offsetStr else .ok 0) with
  | .error err => { status := 400, body := .failure "Invalid offset parameter" err }
  | .ok offset =>
    match (if limitStr ≠ "" then Atoi limitStr else .ok 10) with
    | .error err => { status := 400, body := .failure "Invalid limit parameter" err }
    | .ok limit =>
      match (h.manager.GetConnection req.connection_id).2 with
      | some err => { status := 404, body := .failure "Connection not found" err }
      | none =>
        match (ReadMessagesFromVHost req.vhost offset limit sc).1 with
        | .error err => { status := 500, body := .failure "Failed to read messages" err }
        | .ok messages => { status := 200, body := .batch messages }

/-! ## Sample inputs for the manager and the handler -/

/-- A connection with the given ID. -/
def sampleConnection (id : String) : Connection :=
  { ID := id, Name := id,
    Config := { ID := id, Name := id, Host := "localhost", Port := 5672, VHost := "",
                Username := "guest", Password := "guest", HTTPPort := 15672,
                StreamPort := 5552 } }

/-- A manager holding the connections `A` and `B`. -/
def sampleManager : Manager :=
  { connections := [("A", sampleConnection "A"), ("B", sampleConnection "B")],
    configs := [(sampleConnection "A").Config, (sampleConnection "B").Config] }

/-- A queue list with two streams and one classic queue in the given vhost. -/
def sampleQueues (vhost : String) : List ApiQueue :=
  [{ Name := "s1", VHost := vhost, QueueType := "stream" },
   { Name := "q", VHost := vhost, QueueType := "classic" },
   { Name := "s2", VHost := vhost, QueueType := "stream" }]

/-- A request for messages of stream `s` in vhost `/` of the given connection. -/
def sampleRequest (id : String) (query : GoMap (List String)) : MessagesRequest :=
  { connection_id := id, vhost := "/", stream_name := "s", query := query }

/-- A read during which nothing is delivered before the timeout. -/
def quietRead : ReadScenario :=
  { envErr := none, consumerErr := none, deliveries := [], event := .timeout }

/-- The list a discovery call contributes: what it returns, and nothing when
it fails. -/
def okList {α : Type} : Except GoError (List α) → List α
  | .ok l => l
  | .error _ => []

/-- The record `ListVHosts` appends for a decoded vhost: none when the stream
listing of the vhost fails. -/
def vhostRecord (c : Connection) (v : String × ApiReply ApiQueue) : Option VHost :=
  match c.ListStreamsInVHost v.1 v.2 with
  | .ok streams => some { Name := v.1, ConnectionID := c.ID, Streams := streams }
  | .error _ => none

/-! ## `ReadMessagesFromVHost`: the subscription offset (lines 590-592) -/

/-- Conversion `int64(x)` of a `uint64`. -/
def toInt64 (x : Nat) : Int :=
  let r : Nat := x % 2 ^ 64
  if r < 2 ^ 63 then (r : Int) else (r : Int) - 2 ^ 64

/-- Line 591: the number handed to `OffsetSpecification{}.Offset` for the
requested offset. -/
def subscriptionOffset (offset : Nat) : Int := toInt64 offset

/-! ## `ReadMessagesFromVHost`: the completion signal (lines 446, 583-588, 599-601)

The callback and the caller run in different goroutines. A run is a sequence of
events: a delivery handled by the callback, or the caller reaching the
`select` of line 599. -/

/-- A channel, as a non-blocking send and a receiver see it. -/
structure Chan where
  capacity : Nat
  buffered : Nat
  receiverWaiting : Bool
  deriving DecidableEq, Repr

/-- Go `make(chan T, capacity)`; `make(chan T)` has capacity 0. -/
def makeChan (capacity : Nat) : Chan :=
  { capacity := capacity, buffered := 0, receiverWaiting := false }

/-- The statement `select { case ch <- v: default: }`: the channel afterwards
and whether the value was sent. A send proceeds when a receiver is waiting or
the buffer has room. -/
def trySend (ch : Chan) : Chan × Bool :=
  if ch.receiverWaiting then ({ ch with receiverWaiting := false }, true)
  else if ch.buffered < ch.capacity then ({ ch with buffered := ch.buffered + 1 }, true)
  else (ch, false)

/-- The accumulator, the channel `done`, and whether the caller has received
from `done`. -/
structure WaitState where
  messages : List Message
  done : Chan
  signalled : Bool
  deriving DecidableEq, Repr

/-- An event of a run. -/
inductive ReadEvent where
  | deliver (d : Delivery)
  | startWait
  deriving DecidableEq, Repr

/-- The state after line 446: `done := make(chan bool)`. -/
def initialWait : WaitState :=
  { messages := [], done := makeChan 0, signalled := false }

/-- One event: the callback (lines 451-589) on a delivery, or the caller
starting to receive from `done` (line 600). -/
def readStep (limit : Int) (st : WaitState) : ReadEvent → WaitState
  | .deliver d =>
    let r := consumerCallback limit st.messages d
    if r.2 then
      let s := trySend st.done
      { messages := r.1, done := s.1,
        signalled := st.signalled || (s.2 && st.done.receiverWaiting) }
    else { st with messages := r.1 }
  | .startWait =>
    if st.done.buffered > 0 then
      { st with done := { st.done with buffered := st.done.buffered - 1 }, signalled := true }
    else { st with done := { st.done with receiverWaiting := true } }

/-- A run from the initial state. -/
def runRead (limit : Int) (events : List ReadEvent) : WaitState :=
  events.foldl (readStep limit) initialWait

/-! ## Quantities used in the statements on `Validate` and on iteration order -/

/-- The connection with its stream port defaulted: the original port if it is
positive and 5552 otherwise. -/
def withDefaultStreamPort (conn : ConnectionConfig) : ConnectionConfig :=
  { conn with StreamPort := if 0 < conn.StreamPort then conn.StreamPort else 5552 }

/-- Two iterations of the same container: both nil, or the same entries in
some order. -/
def SameUpToOrder (c₁ c₂ : AmqpAnnotations) : Prop :=
  match c₁, c₂ with
  | none, none => True
  | some a, some b => a.Perm b
  | _, _ => False

/-- The keys of the container have pairwise distinct texts. -/
def DistinctTexts (c : AmqpAnnotations) : Prop :=
  ((c.getD []).map (fun kv => keyText kv.1)).Nodup

/-- At most one key of the container has the text `x-routing-key` or
`routing-key`. -/
def AtMostOneRoutingKey (c : AmqpAnnotations) : Prop :=
  ((c.getD []).filter (fun kv => isRoutingKey (keyText kv.1))).length ≤ 1

/-- Two stored values are the same: equal plain values, or nested maps with
the same value under every key. -/
def PropValue.Same : PropValue → PropValue → Prop
  | .val a, .val b => a = b
  | .map m₁, .map m₂ => ∀ k, m₁.get k = m₂.get k
  | _, _ => False

/-- Two lookups agree: both absent, or both present with the same value. -/
def SameEntry : Option PropValue → Option PropValue → Prop
  | none, none => True
  | some a, some b => a.Same b
  | _, _ => False

/-- Two normalized mappings are the same map: they agree under every key. -/
def SameProps (p q : GoMap PropValue) : Prop :=
  ∀ k, SameEntry (p.get k) (q.get k)

/-- A raw message whose message annotations hold both routing-key names, with
the entries in the given order. -/
def twoKeyMessage (entries : List (AnnKey × Value)) : AmqpMessage :=
  { bareMessage with Annotations := some entries }

/-! ## Lemmas on maps -/

theorem GoMap.get_set {α : Type} (m : GoMap α) (k k' : String) (v : α) :
    (m.set k v).get k' = if k = k' then some v else m.get k' := by
  induction m with
  | nil => simp [GoMap.set, GoMap.get]
  | cons hd tl ih =>
    obtain ⟨a, b⟩ := hd
    by_cases h : a = k
    · subst h
      by_cases h' : a = k' <;> simp [GoMap.set, GoMap.get, h']
    · by_cases h' : a = k'
      · subst h'
        have hk : ¬ k = a := fun e => h e.symm
        simp [GoMap.set, GoMap.get, h, hk]
      · simp [GoMap.set, GoMap.get, h, h', ih]

theorem GoMap.get_set_self {α : Type} (m : GoMap α) (k : String) (v : α) :
    (m.set k v).get k = some v := by
  simp [GoMap.get_set]

theorem GoMap.get_set_ne {α : Type} (m : GoMap α) (k k' : String) (v : α) (h : k ≠ k') :
    (m.set k v).get k' = m.get k' := by
  simp [GoMap.get_set, h]

theorem GoMap.get_setIf {α : Type} (c : Bool) (m : GoMap α) (k k' : String) (v : α) :
    (GoMap.setIf c m k v).get k' = if c = true ∧ k = k' then some v else m.get k' := by
  cases c <;> simp [GoMap.setIf, GoMap.get_set]

/-! ## Lemmas on the accumulator -/

theorem clampLimit_pos (limit : Int) : 1 ≤ clampLimit limit := by
  unfold clampLimit
  dsimp only
  split_ifs <;> omega

theorem clampLimit_le (limit : Int) : clampLimit limit ≤ 500 := by
  unfold clampLimit
  dsimp only
  split_ifs <;> omega

theorem foldl_callback (limit : Int) (ds : List Delivery) (acc : List Message) :
    ds.foldl (fun messages d => (consumerCallback limit messages d).1) acc
      = acc ++ (ds.map buildMessage).take (limit.toNat - acc.length) := by
  induction ds generalizing acc with
  | nil => simp
  | cons d ds ih =>
    rw [List.foldl_cons, ih]
    by_cases h : (acc.length : Int) ≥ limit
    · have h0 : limit.toNat - acc.length = 0 := by omega
      simp [consumerCallback, h, h0]
    · have h1 : limit.toNat - acc.length = (limit.toNat - (acc.length + 1)) + 1 := by omega
      simp only [consumerCallback, h, if_false, List.length_append, List.length_singleton,
        List.map_cons]
      rw [h1, List.take_succ_cons]
      simp

theorem accumulate_eq_take (limit : Int) (ds : List Delivery) :
    accumulate limit ds = (ds.map buildMessage).take limit.toNat := by
  unfold accumulate
  rw [foldl_callback]
  simp

theorem read_after_wait (vhost : String) (offset : Nat) (limit : Int) (ds : List Delivery)
    (ev : WaitEvent) (h : ev = .done ∨ ev = .timeout) :
    ReadMessagesFromVHost vhost offset limit ⟨none, none, ds, ev⟩
      = (.ok (buildBatch offset (clampLimit limit) (accumulate (clampLimit limit) ds)),
          [.consumerClose, .envClose]) := by
  rcases h with h | h <;> subst h <;> rfl

theorem foldl_min_le (rest : List Message) (a : Nat) :
    rest.foldl (fun lo m => min lo m.Offset) a ≤ a ∧
    ∀ m ∈ rest, rest.foldl (fun lo m => min lo m.Offset) a ≤ m.Offset := by
  induction rest generalizing a with
  | nil => simp
  | cons hd tl ih =>
    simp only [List.foldl_cons, List.mem_cons, forall_eq_or_imp]
    have h1 := (ih (min a hd.Offset)).1
    have h2 := (ih (min a hd.Offset)).2
    refine ⟨by omega, by omega, h2⟩

theorem le_foldl_max (rest : List Message) (a : Nat) :
    a ≤ rest.foldl (fun hi m => max hi m.Offset) a ∧
    ∀ m ∈ rest, m.Offset ≤ rest.foldl (fun hi m => max hi m.Offset) a := by
  induction rest generalizing a with
  | nil => simp
  | cons hd tl ih =>
    simp only [List.foldl_cons, List.mem_cons, forall_eq_or_imp]
    have h1 := (ih (max a hd.Offset)).1
    have h2 := (ih (max a hd.Offset)).2
    refine ⟨by omega, by omega, h2⟩

theorem offset_between (first : Message) (rest : List Message) (m : Message)
    (hm : m ∈ first :: rest) :
    minOffset first rest ≤ m.Offset ∧ m.Offset ≤ maxOffset first rest := by
  unfold minOffset maxOffset
  rcases List.mem_cons.mp hm with h | h
  · subst h
    exact ⟨(foldl_min_le rest m.Offset).1, (le_foldl_max rest m.Offset).1⟩
  · exact ⟨(foldl_min_le rest first.Offset).2 m h, (le_foldl_max rest first.Offset).2 m h⟩

/-! ## Lemmas on property extraction -/

theorem isRoutingKey_iff (t : String) :
    isRoutingKey t = true ↔ (t = "x-routing-key" ∨ t = "routing-key") := by
  simp [isRoutingKey]

theorem scan_get_other (entries : List (AnnKey × Value)) (st : GoMap Value × GoMap PropValue)
    (k : String) (hk : k ≠ "routing_key") :
    (entries.foldl scanStep st).2.get k = st.2.get k := by
  induction entries generalizing st with
  | nil => rfl
  | cons hd tl ih =>
    rw [List.foldl_cons, ih]
    unfold scanStep
    by_cases h : isRoutingKey (keyText hd.1) = true
    · simp [h, GoMap.get_set_ne _ _ _ _ (Ne.symm hk)]
    · simp [h]

theorem scan_get_routing (entries : List (AnnKey × Value)) (st : GoMap Value × GoMap PropValue) :
    ((∀ kv ∈ entries, isRoutingKey (keyText kv.1) = false) ∧
        (entries.foldl scanStep st).2.get "routing_key" = st.2.get "routing_key") ∨
    (∃ kv ∈ entries, isRoutingKey (keyText kv.1) = true ∧
        (entries.foldl scanStep st).2.get "routing_key" = some (.val kv.2)) := by
  induction entries generalizing st with
  | nil => left; simp
  | cons hd tl ih =>
    rw [List.foldl_cons]
    rcases ih (scanStep st hd) with ⟨hno, hget⟩ | ⟨kv, hmem, hrk, hget⟩
    · by_cases h : isRoutingKey (keyText hd.1) = true
      · right
        refine ⟨hd, List.mem_cons_self _ _, h, ?_⟩
        rw [hget]
        simp [scanStep, h, GoMap.get_set_self]
      · left
        have hf : isRoutingKey (keyText hd.1) = false := by simpa using h
        refine ⟨?_, ?_⟩
        · intro kv hkv
          rcases List.mem_cons.mp hkv with e | e
          · rw [e]; exact hf
          · exact hno kv e
        · rw [hget]
          simp [scanStep, hf]
    · right
      exact ⟨kv, List.mem_cons_of_mem _ hmem, hrk, hget⟩

theorem addProperties_get_other (message : AmqpMessage) (props : GoMap PropValue) (k : String)
    (hk : k ∉ ["message_id", "correlation_id", "content_type", "content_encoding", "reply_to",
      "subject", "to", "user_id", "group_id", "reply_to_group_id", "group_sequence",
      "creation_time", "absolute_expiry_time"]) :
    (addProperties message props).get k = props.get k := by
  simp only [List.mem_cons, List.mem_singleton, List.not_mem_nil, or_false, not_or] at hk
  obtain ⟨h1, h2, h3, h4, h5, h6, h7, h8, h9, h10, h11, h12, h13⟩ := hk
  unfold addProperties
  cases message.Properties with
  | none => rfl
  | some p =>
    simp only [GoMap.get_setIf, Ne.symm h1, Ne.symm h2, Ne.symm h3, Ne.symm h4, Ne.symm h5,
      Ne.symm h6, Ne.symm h7, Ne.symm h8, Ne.symm h9, Ne.symm h10, Ne.symm h11, Ne.symm h12,
      Ne.symm h13, and_false, if_false]

theorem addHeader_get_other (message : AmqpMessage) (props : GoMap PropValue) (k : String)
    (hk : k ∉ ["durable", "priority", "ttl", "first_acquirer", "delivery_count"]) :
    (addHeader message props).get k = props.get k := by
  simp only [List.mem_cons, List.mem_singleton, List.not_mem_nil, or_false, not_or] at hk
  obtain ⟨h1, h2, h3, h4, h5⟩ := hk
  unfold addHeader
  cases message.Header with
  | none => rfl
  | some h =>
    simp only [GoMap.get_setIf, Ne.symm h1, Ne.symm h2, Ne.symm h3, Ne.symm h4, Ne.symm h5,
      and_false, if_false]

theorem addAnnotations_get_other (message : AmqpMessage) (props : GoMap PropValue) (k : String)
    (h1 : k ≠ "routing_key") (h2 : k ≠ "message_annotations") :
    (addAnnotations message props).get k = props.get k := by
  unfold addAnnotations
  cases message.Annotations with
  | none => rfl
  | some entries =>
    dsimp only
    split_ifs
    · rw [GoMap.get_set_ne _ _ _ _ (Ne.symm h2)]
      exact scan_get_other entries ([], props) k h1
    · rfl

theorem addDeliveryAnnotations_get_other (message : AmqpMessage) (props : GoMap PropValue)
    (k : String) (h1 : k ≠ "routing_key") (h2 : k ≠ "delivery_annotations") :
    (addDeliveryAnnotations message props).get k = props.get k := by
  unfold addDeliveryAnnotations
  cases message.DeliveryAnnotations with
  | none => rfl
  | some entries =>
    dsimp only
    split_ifs
    · rw [GoMap.get_set_ne _ _ _ _ (Ne.symm h2)]
      exact scan_get_other entries ([], props) k h1
    · rfl

theorem addApplicationProperties_get_other (message : AmqpMessage) (props : GoMap PropValue)
    (k : String) (h : k ≠ "application_properties") :
    (addApplicationProperties message props).get k = props.get k := by
  unfold addApplicationProperties
  cases message.ApplicationProperties with
  | none => rfl
  | some entries =>
    dsimp only
    split_ifs
    · rw [GoMap.get_set_ne _ _ _ _ (Ne.symm h)]
    · rfl

theorem addFooter_get_other (message : AmqpMessage) (props : GoMap PropValue)
    (k : String) (h : k ≠ "footer") :
    (addFooter message props).get k = props.get k := by
  unfold addFooter
  cases message.Footer with
  | none => rfl
  | some entries =>
    dsimp only
    split_ifs
    · rw [GoMap.get_set_ne _ _ _ _ (Ne.symm h)]
    · rfl

theorem scan_routing_cases (entries : List (AnnKey × Value)) (props : GoMap PropValue) :
    ((¬ ∃ v, StoresRoutingKey (some entries) v) ∧
        (scanAnnotations entries props).2.get "routing_key" = props.get "routing_key") ∨
    (∃ v, StoresRoutingKey (some entries) v ∧
        (scanAnnotations entries props).2.get "routing_key" = some (.val v)) := by
  unfold scanAnnotations
  rcases scan_get_routing entries ([], props) with ⟨hno, hget⟩ | ⟨kv, hmem, hrk, hget⟩
  · left
    refine ⟨?_, hget⟩
    rintro ⟨v, es, hes, kv, hkv, htext, -⟩
    cases hes
    have := hno kv hkv
    rw [(isRoutingKey_iff _).mpr htext] at this
    cases this
  · right
    exact ⟨kv.2, ⟨entries, rfl, kv, hmem, (isRoutingKey_iff _).mp hrk, rfl⟩, hget⟩

theorem not_stores_of_empty (entries : List (AnnKey × Value)) (h : ¬ entries.length > 0) :
    ¬ ∃ v, StoresRoutingKey (some entries) v := by
  rintro ⟨v, es, hes, kv, hkv, -⟩
  cases hes
  cases entries with
  | nil => cases hkv
  | cons a b => simp at h

theorem addAnnotations_routing (message : AmqpMessage) (props : GoMap PropValue) :
    ((¬ ∃ v, StoresRoutingKey message.Annotations v) ∧
        (addAnnotations message props).get "routing_key" = props.get "routing_key") ∨
    (∃ v, StoresRoutingKey message.Annotations v ∧
        (addAnnotations message props).get "routing_key" = some (.val v)) := by
  unfold addAnnotations
  cases message.Annotations with
  | none =>
    left
    refine ⟨?_, rfl⟩
    rintro ⟨v, es, hes, -⟩
    cases hes
  | some entries =>
    dsimp only
    split_ifs with h
    · rw [GoMap.get_set_ne _ _ _ _ (by decide)]
      exact scan_routing_cases entries props
    · left
      exact ⟨not_stores_of_empty entries h, rfl⟩

theorem addDeliveryAnnotations_routing (message : AmqpMessage) (props : GoMap PropValue) :
    ((¬ ∃ v, StoresRoutingKey message.DeliveryAnnotations v) ∧
        (addDeliveryAnnotations message props).get "routing_key" = props.get "routing_key") ∨
    (∃ v, StoresRoutingKey message.DeliveryAnnotations v ∧
        (addDeliveryAnnotations message props).get "routing_key" = some (.val v)) := by
  unfold addDeliveryAnnotations
  cases message.DeliveryAnnotations with
  | none =>
    left
    refine ⟨?_, rfl⟩
    rintro ⟨v, es, hes, -⟩
    cases hes
  | some entries =>
    dsimp only
    split_ifs with h
    · rw [GoMap.get_set_ne _ _ _ _ (by decide)]
      exact scan_routing_cases entries props
    · left
      exact ⟨not_stores_of_empty entries h, rfl⟩

theorem extractProps_routing (message : AmqpMessage) :
    (extractProps message).get "routing_key"
      = (addDeliveryAnnotations message (addAnnotations message
          (addHeader message (addProperties message [])))).get "routing_key" := by
  unfold extractProps
  dsimp only
  rw [addFooter_get_other _ _ _ (by decide),
    addApplicationProperties_get_other _ _ _ (by decide)]

theorem base_routing (message : AmqpMessage) :
    (addHeader message (addProperties message [])).get "routing_key" = none := by
  rw [addHeader_get_other _ _ _ (by decide), addProperties_get_other _ _ _ (by decide)]
  rfl

theorem extractProps_get_standard (message : AmqpMessage) (k : String)
    (hk : k ∉ ["routing_key", "message_annotations", "delivery_annotations",
      "application_properties", "footer"]) :
    (extractProps message).get k
      = (addHeader message (addProperties message [])).get k := by
  simp only [List.mem_cons, List.mem_singleton, List.not_mem_nil, or_false, not_or] at hk
  obtain ⟨h1, h2, h3, h4, h5⟩ := hk
  unfold extractProps
  dsimp only
  rw [addFooter_get_other _ _ _ h5, addApplicationProperties_get_other _ _ _ h4,
    addDeliveryAnnotations_get_other _ _ _ h1 h3, addAnnotations_get_other _ _ _ h1 h2]

/-! ## Claims -/

/-- C1: the effective limit of `ReadMessagesFromVHost` is 10 when `limit ≤ 0`,
500 when `limit > 500`, and `limit` itself otherwise; it always lies in
`[1, 500]`. -/
theorem clampLimit_spec (limit : Int) :
    (limit ≤ 0 → clampLimit limit = 10) ∧
    (limit > 500 → clampLimit limit = 500) ∧
    (0 < limit → limit ≤ 500 → clampLimit limit = limit) ∧
    1 ≤ clampLimit limit ∧ clampLimit limit ≤ 500 := by
  refine ⟨?_, ?_, ?_, clampLimit_pos limit, clampLimit_le limit⟩
  · intro h
    unfold clampLimit
    dsimp only
    split_ifs <;> omega
  · intro h
    unfold clampLimit
    dsimp only
    split_ifs <;> omega
  · intro h1 h2
    unfold clampLimit
    dsimp only
    split_ifs <;> omega

theorem clampLimit_spec_witness :
    clampLimit (-3) = 10 ∧ clampLimit 9000 = 500 ∧ clampLimit 37 = 37 :=
  ⟨(clampLimit_spec (-3)).1 (by decide), (clampLimit_spec 9000).2.1 (by decide),
    (clampLimit_spec 37).2.2.1 (by decide) (by decide)⟩

/-- C2: when the wait ends with the completion signal or the timeout and no
message was collected, the batch has an empty non-nil message list,
`StartOffset = EndOffset =` the requested offset and `HasMore = false`. -/
theorem read_empty_batch (vhost : String) (offset : Nat) (limit : Int) (ds : List Delivery)
    (ev : WaitEvent) (hev : ev = .done ∨ ev = .timeout)
    (h0 : accumulate (clampLimit limit) ds = []) :
    (ReadMessagesFromVHost vhost offset limit ⟨none, none, ds, ev⟩).1
      = .ok { Messages := some [], StartOffset := offset, EndOffset := offset,
              HasMore := false } := by
  rw [read_after_wait vhost offset limit ds ev hev, h0]
  rfl

theorem read_empty_batch_witness :
    (ReadMessagesFromVHost "/" 7 3 ⟨none, none, [], .timeout⟩).1
      = .ok { Messages := some [], StartOffset := 7, EndOffset := 7, HasMore := false } :=
  read_empty_batch "/" 7 3 [] .timeout (Or.inr rfl) rfl

/-- C3: when the collected messages are `first :: rest`, the batch carries
them, `StartOffset` is the offset of `first`, `EndOffset` the offset of the last
collected message, and `HasMore` holds exactly when their number equals the
effective limit. -/
theorem read_nonempty_batch (vhost : String) (offset : Nat) (limit : Int) (ds : List Delivery)
    (ev : WaitEvent) (first : Message) (rest : List Message)
    (hev : ev = .done ∨ ev = .timeout)
    (hacc : accumulate (clampLimit limit) ds = first :: rest) :
    ∃ batch, (ReadMessagesFromVHost vhost offset limit ⟨none, none, ds, ev⟩).1 = .ok batch ∧
      batch.Messages = some (first :: rest) ∧
      batch.StartOffset = first.Offset ∧
      batch.EndOffset = ((first :: rest).getLast (List.cons_ne_nil first rest)).Offset ∧
      (batch.HasMore = true ↔ (((first :: rest).length : Nat) : Int) = clampLimit limit) := by
  rw [read_after_wait vhost offset limit ds ev hev, hacc]
  exact ⟨_, rfl, rfl, rfl, rfl, by simp [buildBatch]⟩

theorem read_nonempty_batch_witness :
    ∃ batch, (ReadMessagesFromVHost "/" 0 2
        ⟨none, none, [deliveryAt 4, deliveryAt 5, deliveryAt 6], .done⟩).1 = .ok batch ∧
      batch.Messages = some [buildMessage (deliveryAt 4), buildMessage (deliveryAt 5)] ∧
      batch.StartOffset = (buildMessage (deliveryAt 4)).Offset ∧
      batch.EndOffset = (buildMessage (deliveryAt 5)).Offset ∧
      (batch.HasMore = true ↔ ((2 : Nat) : Int) = clampLimit 2) :=
  read_nonempty_batch "/" 0 2 [deliveryAt 4, deliveryAt 5, deliveryAt 6] .done
    (buildMessage (deliveryAt 4)) [buildMessage (deliveryAt 5)] (Or.inl rfl) (by decide)

/-- C4: after every prefix of the deliveries the accumulator holds at most
the effective limit of messages, and after all `n` deliveries it holds exactly
the first `min n limit` delivered messages, in delivery order. -/
theorem accumulator_bounded_in_order (limit : Int) (ds : List Delivery) :
    (∀ n, ((accumulate (clampLimit limit) (ds.take n)).length : Int) ≤ clampLimit limit) ∧
    accumulate (clampLimit limit) ds
      = (ds.map buildMessage).take (min ds.length (clampLimit limit).toNat) := by
  have hpos := clampLimit_pos limit
  constructor
  · intro n
    rw [accumulate_eq_take, List.length_take]
    omega
  · rw [accumulate_eq_take]
    apply List.ext_getElem?
    intro i
    simp only [List.getElem?_take]
    by_cases h1 : i < (clampLimit limit).toNat
    · by_cases h2 : i < ds.length
      · have : i < min ds.length (clampLimit limit).toNat := by omega
        simp [h1, this]
      · have : ¬ i < min ds.length (clampLimit limit).toNat := by omega
        have h3 : ds.length ≤ i := by omega
        simp [h1, this, h3]
    · have : ¬ i < min ds.length (clampLimit limit).toNat := by omega
      simp [h1, this]

/-- C5: for deliveries whose offsets are non-decreasing in delivery order, as
the offsets of one stream are, every non-empty batch has
`StartOffset ≤ EndOffset`, and both lie between the smallest and the largest
offset among the collected messages. -/
theorem batch_offsets_ordered (vhost : String) (offset : Nat) (limit : Int)
    (ds : List Delivery) (ev : WaitEvent) (first : Message) (rest : List Message)
    (hev : ev = .done ∨ ev = .timeout)
    (hmono : List.Sorted (· ≤ ·) (ds.map (fun d => (buildMessage d).Offset)))
    (hacc : accumulate (clampLimit limit) ds = first :: rest) :
    ∃ batch, (ReadMessagesFromVHost vhost offset limit ⟨none, none, ds, ev⟩).1 = .ok batch ∧
      batch.Messages = some (first :: rest) ∧
      batch.StartOffset ≤ batch.EndOffset ∧
      minOffset first rest ≤ batch.StartOffset ∧ batch.StartOffset ≤ maxOffset first rest ∧
      minOffset first rest ≤ batch.EndOffset ∧ batch.EndOffset ≤ maxOffset first rest := by
  have hs : List.Sorted (· ≤ ·) ((first :: rest).map Message.Offset) := by
    rw [← hacc, accumulate_eq_take, List.map_take, List.map_map]
    exact List.Pairwise.sublist (List.take_sublist _ _) hmono
  rw [read_after_wait vhost offset limit ds ev hev, hacc]
  have hlast := List.getLast_mem (List.cons_ne_nil first rest)
  have hf := offset_between first rest first (List.mem_cons_self first rest)
  have hl := offset_between first rest _ hlast
  refine ⟨_, rfl, rfl, ?_, hf.1, hf.2, hl.1, hl.2⟩
  show first.Offset ≤ ((first :: rest).getLast (List.cons_ne_nil first rest)).Offset
  rcases List.mem_cons.mp hlast with h | h
  · rw [h]
  · exact List.rel_of_sorted_cons (by simpa using hs) _ (List.mem_map_of_mem Message.Offset h)

theorem batch_offsets_ordered_witness :
    ∃ batch, (ReadMessagesFromVHost "/" 0 2
        ⟨none, none, [deliveryAt 4, deliveryAt 6, deliveryAt 9], .timeout⟩).1 = .ok batch ∧
      batch.Messages = some [buildMessage (deliveryAt 4), buildMessage (deliveryAt 6)] ∧
      batch.StartOffset ≤ batch.EndOffset ∧
      minOffset (buildMessage (deliveryAt 4)) [buildMessage (deliveryAt 6)] ≤ batch.StartOffset ∧
      batch.StartOffset ≤ maxOffset (buildMessage (deliveryAt 4)) [buildMessage (deliveryAt 6)] ∧
      minOffset (buildMessage (deliveryAt 4)) [buildMessage (deliveryAt 6)] ≤ batch.EndOffset ∧
      batch.EndOffset ≤ maxOffset (buildMessage (deliveryAt 4)) [buildMessage (deliveryAt 6)] :=
  batch_offsets_ordered "/" 0 2 [deliveryAt 4, deliveryAt 6, deliveryAt 9] .timeout
    (buildMessage (deliveryAt 4)) [buildMessage (deliveryAt 6)] (Or.inr rfl) (by decide)
    (by decide)

/-- C6, as stated, fails: a read requested at offset 0 whose single collected
message carries offset 100 returns `StartOffset = EndOffset = 100`, outside
`[0, 0 + 1)`. -/
theorem offsets_in_window_counterexample :
    (ReadMessagesFromVHost "/" 0 10 ⟨none, none, [deliveryAt 100], .timeout⟩).1
      = .ok { Messages := some [buildMessage (deliveryAt 100)],
              StartOffset := 100, EndOffset := 100, HasMore := false } ∧
    ¬ ((100 : Nat) < 0 + [buildMessage (deliveryAt 100)].length) := by
  constructor
  · rfl
  · decide

/-- C6, amended: when the `k` collected messages carry the consecutive
offsets `O, O + 1, ..., O + k - 1`, where `O` is the requested offset, both
`StartOffset` and `EndOffset` lie in `[O, O + k)`. -/
theorem offsets_in_window (vhost : String) (offset : Nat) (limit : Int)
    (ds : List Delivery) (ev : WaitEvent) (first : Message) (rest : List Message)
    (hev : ev = .done ∨ ev = .timeout)
    (hacc : accumulate (clampLimit limit) ds = first :: rest)
    (hseq : (first :: rest).map Message.Offset = List.range' offset (first :: rest).length) :
    ∃ batch, (ReadMessagesFromVHost vhost offset limit ⟨none, none, ds, ev⟩).1 = .ok batch ∧
      batch.Messages = some (first :: rest) ∧
      offset ≤ batch.StartOffset ∧ batch.StartOffset < offset + (first :: rest).length ∧
      offset ≤ batch.EndOffset ∧ batch.EndOffset < offset + (first :: rest).length := by
  rw [read_after_wait vhost offset limit ds ev hev, hacc]
  have hmem : ∀ m ∈ first :: rest,
      offset ≤ m.Offset ∧ m.Offset < offset + (first :: rest).length := by
    intro m hm
    have h := List.mem_map_of_mem Message.Offset hm
    rw [hseq] at h
    exact List.mem_range'_1.mp h
  have hlast := hmem _ (List.getLast_mem (List.cons_ne_nil first rest))
  have hfirst := hmem first (List.mem_cons_self first rest)
  exact ⟨_, rfl, rfl, hfirst.1, hfirst.2, hlast.1, hlast.2⟩

theorem offsets_in_window_witness :
    ∃ batch, (ReadMessagesFromVHost "/" 4 2
        ⟨none, none, [deliveryAt 4, deliveryAt 5, deliveryAt 6], .done⟩).1 = .ok batch ∧
      batch.Messages = some [buildMessage (deliveryAt 4), buildMessage (deliveryAt 5)] ∧
      4 ≤ batch.StartOffset ∧ batch.StartOffset < 4 + 2 ∧
      4 ≤ batch.EndOffset ∧ batch.EndOffset < 4 + 2 :=
  offsets_in_window "/" 4 2 [deliveryAt 4, deliveryAt 5, deliveryAt 6] .done
    (buildMessage (deliveryAt 4)) [buildMessage (deliveryAt 5)] (Or.inl rfl) (by decide)
    (by decide)

/-- C7: with the consumer subscribed, the timeout and the completion signal
both end the call successfully, and the batch returned holds exactly what was
accumulated, the first `min n limit` delivered messages, possibly none: its
offsets are those of the first and the last of them (the requested offset when
there is none) and `HasMore` tells whether their number is the effective
limit. Cancellation of the context ends the call with the error of the
context and no batch, however many messages were accumulated. -/
theorem wait_outcome (vhost : String) (offset : Nat) (limit : Int) (ds : List Delivery)
    (err : GoError) (msgs : List Message)
    (hmsgs : msgs = (ds.map buildMessage).take (clampLimit limit).toNat) :
    (ReadMessagesFromVHost vhost offset limit ⟨none, none, ds, .timeout⟩).1
      = .ok { Messages := some msgs,
              StartOffset := (msgs.head?.map Message.Offset).getD offset,
              EndOffset := (msgs.getLast?.map Message.Offset).getD offset,
              HasMore := decide (msgs ≠ [] ∧ (msgs.length : Int) = clampLimit limit) } ∧
    (ReadMessagesFromVHost vhost offset limit ⟨none, none, ds, .done⟩).1
      = .ok { Messages := some msgs,
              StartOffset := (msgs.head?.map Message.Offset).getD offset,
              EndOffset := (msgs.getLast?.map Message.Offset).getD offset,
              HasMore := decide (msgs ≠ [] ∧ (msgs.length : Int) = clampLimit limit) } ∧
    (ReadMessagesFromVHost vhost offset limit ⟨none, none, ds, .ctxDone err⟩).1
      = .error err ∧
    (∀ batch, (ReadMessagesFromVHost vhost offset limit ⟨none, none, ds, .ctxDone err⟩).1
      ≠ .ok batch) := by
  have hbatch : buildBatch offset (clampLimit limit) (accumulate (clampLimit limit) ds)
      = { Messages := some msgs,
          StartOffset := (msgs.head?.map Message.Offset).getD offset,
          EndOffset := (msgs.getLast?.map Message.Offset).getD offset,
          HasMore := decide (msgs ≠ [] ∧ (msgs.length : Int) = clampLimit limit) } := by
    rw [accumulate_eq_take, ← hmsgs]
    cases msgs with
    | nil => simp [buildBatch]
    | cons first rest =>
      simp [buildBatch, List.getLast?_eq_getLast]
  refine ⟨?_, ?_, rfl, ?_⟩
  · rw [read_after_wait vhost offset limit ds .timeout (Or.inr rfl), hbatch]
  · rw [read_after_wait vhost offset limit ds .done (Or.inl rfl), hbatch]
  · intro batch h
    have hctx : (ReadMessagesFromVHost vhost offset limit ⟨none, none, ds, .ctxDone err⟩).1
        = .error err := rfl
    rw [hctx] at h
    cases h

theorem wait_outcome_witness :
    (ReadMessagesFromVHost "/" 7 2
        ⟨none, none, [deliveryAt 4, deliveryAt 5, deliveryAt 6], .timeout⟩).1
      = .ok { Messages := some [buildMessage (deliveryAt 4), buildMessage (deliveryAt 5)],
              StartOffset := 4, EndOffset := 5, HasMore := true } :=
  (wait_outcome "/" 7 2 [deliveryAt 4, deliveryAt 5, deliveryAt 6] (.base "context canceled")
    [buildMessage (deliveryAt 4), buildMessage (deliveryAt 5)] (by decide)).1

/-- C8, as stated, fails: the normalized mapping of the message whose only
metadata is the application property `counter = 42` has no key `counter`; its
only key is `application_properties`. -/
theorem counter_not_top_level :
    (extractProps (counterMessage [])).get "counter" = none ∧
    (extractProps (counterMessage [])).keys = ["application_properties"] := by
  constructor <;> rfl

/-- C8, amended: normalizing a raw message whose only metadata is the
application property `counter = 42` yields a mapping with exactly one key,
`application_properties`, whose value is the nested mapping holding exactly
`counter` with value 42; no other field is present. -/
theorem counter_nested (data : List Nat) :
    extractProps (counterMessage data)
      = [("application_properties", .map [("counter", .int 42)])] := by
  rfl

/-- C9: the normalized mapping has a `routing_key` entry exactly when the
message annotations or the delivery annotations store a value under a key
whose text is `x-routing-key` or `routing-key`; if the delivery annotations
do, the entry is such a value of the delivery annotations, and otherwise it is
such a value of the message annotations. -/
theorem routing_key_promotion (message : AmqpMessage) :
    ((∃ pv, (extractProps message).get "routing_key" = some pv) ↔
      ((∃ v, StoresRoutingKey message.Annotations v) ∨
        (∃ v, StoresRoutingKey message.DeliveryAnnotations v))) ∧
    ((∃ v, StoresRoutingKey message.DeliveryAnnotations v) →
      ∃ v, StoresRoutingKey message.DeliveryAnnotations v ∧
        (extractProps message).get "routing_key" = some (.val v)) ∧
    ((¬ ∃ v, StoresRoutingKey message.DeliveryAnnotations v) →
      (∃ v, StoresRoutingKey message.Annotations v) →
      ∃ v, StoresRoutingKey message.Annotations v ∧
        (extractProps message).get "routing_key" = some (.val v)) := by
  rw [extractProps_routing]
  rcases addDeliveryAnnotations_routing message
      (addAnnotations message (addHeader message (addProperties message [])))
    with ⟨hnd, hd⟩ | ⟨v, hv, hd⟩
  · rcases addAnnotations_routing message (addHeader message (addProperties message []))
      with ⟨hna, ha⟩ | ⟨w, hw, ha⟩
    · rw [hd, ha, base_routing]
      refine ⟨⟨?_, ?_⟩, fun h => absurd h hnd, fun _ h => absurd h hna⟩
      · rintro ⟨pv, hpv⟩
        cases hpv
      · rintro (h | h)
        · exact absurd h hna
        · exact absurd h hnd
    · rw [hd, ha]
      exact ⟨⟨fun _ => Or.inl ⟨w, hw⟩, fun _ => ⟨_, rfl⟩⟩, fun h => absurd h hnd,
        fun _ _ => ⟨w, hw, rfl⟩⟩
  · rw [hd]
    exact ⟨⟨fun _ => Or.inr ⟨v, hv⟩, fun _ => ⟨_, rfl⟩⟩, fun _ => ⟨v, hv, rfl⟩,
      fun h => absurd ⟨v, hv⟩ h⟩

theorem routing_key_promotion_witness :
    ∃ v, StoresRoutingKey routedMessage.DeliveryAnnotations v ∧
      (extractProps routedMessage).get "routing_key" = some (.val v) :=
  (routing_key_promotion routedMessage).2.1
    ⟨.str "c.d", _, rfl, (.sym "routing-key", .str "c.d"), by decide, Or.inr rfl, rfl⟩

/-- C10: every standard-property and header key of the normalized mapping is
present exactly when its source container is non-nil and its source field is
non-nil, non-empty, non-zero or true, and then carries the source value;
`user_id` is the string with exactly the bytes of the user id, hence the text
`s` when these bytes are the UTF-8 encoding of `s`; a message without metadata
yields the
empty mapping. -/
theorem standard_fields (message : AmqpMessage) :
    (extractProps message).get "message_id"
      = specField message.Properties (fun p => p.MessageID ≠ .nil) (fun p => p.MessageID) ∧
    (extractProps message).get "correlation_id"
      = specField message.Properties (fun p => p.CorrelationID ≠ .nil)
          (fun p => p.CorrelationID) ∧
    (extractProps message).get "content_type"
      = specField message.Properties (fun p => p.ContentType ≠ "")
          (fun p => .str p.ContentType) ∧
    (extractProps message).get "content_encoding"
      = specField message.Properties (fun p => p.ContentEncoding ≠ "")
          (fun p => .str p.ContentEncoding) ∧
    (extractProps message).get "reply_to"
      = specField message.Properties (fun p => p.ReplyTo ≠ "") (fun p => .str p.ReplyTo) ∧
    (extractProps message).get "subject"
      = specField message.Properties (fun p => p.Subject ≠ "") (fun p => .str p.Subject) ∧
    (extractProps message).get "to"
      = specField message.Properties (fun p => p.To ≠ "") (fun p => .str p.To) ∧
    (extractProps message).get "user_id"
      = specField message.Properties (fun p => p.UserID ≠ [])
          (fun p => .text p.UserID) ∧
    (extractProps message).get "group_id"
      = specField message.Properties (fun p => p.GroupID ≠ "") (fun p => .str p.GroupID) ∧
    (extractProps message).get "reply_to_group_id"
      = specField message.Properties (fun p => p.ReplyToGroupID ≠ "")
          (fun p => .str p.ReplyToGroupID) ∧
    (extractProps message).get "group_sequence"
      = specField message.Properties (fun p => p.GroupSequence ≠ 0)
          (fun p => .uint32 p.GroupSequence) ∧
    (extractProps message).get "creation_time"
      = specField message.Properties (fun p => p.CreationTime ≠ ⟨0, 0⟩)
          (fun p => .time p.CreationTime) ∧
    (extractProps message).get "absolute_expiry_time"
      = specField message.Properties (fun p => p.AbsoluteExpiryTime ≠ ⟨0, 0⟩)
          (fun p => .time p.AbsoluteExpiryTime) ∧
    (extractProps message).get "durable"
      = specField message.Header (fun h => h.Durable = true) (fun h => .bool h.Durable) ∧
    (extractProps message).get "priority"
      = specField message.Header (fun h => h.Priority ≠ 0) (fun h => .uint8 h.Priority) ∧
    (extractProps message).get "ttl"
      = specField message.Header (fun h => h.TTL ≠ 0) (fun h => .duration h.TTL) ∧
    (extractProps message).get "first_acquirer"
      = specField message.Header (fun h => h.FirstAcquirer = true)
          (fun h => .bool h.FirstAcquirer) ∧
    (extractProps message).get "delivery_count"
      = specField message.Header (fun h => h.DeliveryCount ≠ 0)
          (fun h => .uint32 h.DeliveryCount) ∧
    (∀ p, message.Properties = some p → p.UserID ≠ [] →
      ((extractProps message).get "user_id").bind PropValue.stringBytes = some p.UserID) ∧
    (∀ p s, message.Properties = some p → p.UserID ≠ [] → p.UserID = utf8Bytes s →
      ((extractProps message).get "user_id").bind PropValue.stringBytes
        = (Value.str s).stringBytes) ∧
    (∀ data, extractProps { bareMessage with Data := data } = []) := by
  have huser : (extractProps message).get "user_id"
      = specField message.Properties (fun p => p.UserID ≠ []) (fun p => .text p.UserID) := by
    rw [extractProps_get_standard _ _ (by decide), addHeader_get_other _ _ _ (by decide)]
    unfold addProperties specField
    cases message.Properties with
    | none => rfl
    | some p => simp [GoMap.get_setIf, GoMap.get, List.length_pos, stringOfBytes]
  have hbytes : ∀ p, message.Properties = some p → p.UserID ≠ [] →
      ((extractProps message).get "user_id").bind PropValue.stringBytes = some p.UserID := by
    intro p hp hne
    rw [huser, hp]
    simp [specField, hne, PropValue.stringBytes, Value.stringBytes]
  have hz : ∀ t : Time, t.IsZero = false ↔ ¬ t = ⟨0, 0⟩ := by
    intro t
    cases t
    simp [Time.IsZero]
  refine ⟨?_, ?_, ?_, ?_, ?_, ?_, ?_, ?_, ?_, ?_, ?_, ?_, ?_, ?_, ?_, ?_, ?_, ?_, hbytes, ?_,
    fun _ => rfl⟩
  iterate 13
    rw [extractProps_get_standard _ _ (by decide), addHeader_get_other _ _ _ (by decide)]
    unfold addProperties specField
    cases message.Properties with
    | none => rfl
    | some p => simp [GoMap.get_setIf, GoMap.get, hz, List.length_pos, stringOfBytes]
  iterate 5
    rw [extractProps_get_standard _ _ (by decide)]
    unfold addHeader specField
    cases message.Header with
    | none => exact addProperties_get_other _ _ _ (by decide)
    | some h =>
      simp only [GoMap.get_setIf]
      rw [addProperties_get_other _ _ _ (by decide)]
      simp [GoMap.get]
  intro p s hp hne hs
  rw [hbytes p hp hne, hs]
  rfl

theorem standard_fields_witness :
    ((extractProps (userMessage [195, 169])).get "user_id").bind PropValue.stringBytes
      = (Value.str "é").stringBytes :=
  (standard_fields (userMessage [195, 169])).2.2.2.2.2.2.2.2.2.2.2.2.2.2.2.2.2.2.2.1
    _ "é" rfl (by decide) (by decide)

/-! ## Lemmas on the configuration -/

theorem validateLoop_nil_iff (i : Nat) (seen : List String) (conns : List ConnectionConfig) :
    (validateLoop i seen conns).1 = none ↔
      (∀ conn ∈ conns, conn.ID ≠ "" ∧ conn.ID ∉ seen ∧ conn.Host ≠ "" ∧ 0 < conn.Port ∧
        0 < conn.HTTPPort ∧ conn.Username ≠ "") ∧
      (conns.map ConnectionConfig.ID).Nodup := by
  induction conns generalizing i seen with
  | nil => simp [validateLoop]
  | cons conn rest ih =>
    unfold validateLoop
    split_ifs with h1 h2 h3 h4 h5 h6
    · simp [h1]
    · simp [h2]
    · simp [h3]
    · simp; intro _ _ _ hp; omega
    · simp; intro _ _ _ _ hp; omega
    · simp [h6]
    all_goals
      dsimp only
      simp only [ih, List.mem_cons, forall_eq_or_imp, List.map_cons, List.nodup_cons,
        List.mem_map, not_or, not_exists, not_and]
      constructor
      · rintro ⟨hall, hnd⟩
        refine ⟨⟨⟨h1, h2, h3, by omega, by omega, h6⟩, ?_⟩, ?_, hnd⟩
        · intro c hc
          obtain ⟨a, b, c', d⟩ := hall c hc
          exact ⟨a, b.2, c', d⟩
        · intro c hc hid
          exact (hall c hc).2.1.1 hid
      · rintro ⟨⟨_, hall⟩, hni, hnd⟩
        refine ⟨?_, hnd⟩
        intro c hc
        obtain ⟨a, b, c', d⟩ := hall c hc
        exact ⟨a, ⟨fun e => hni c hc e, b⟩, c', d⟩

theorem validate_nil_iff (c : Config) : c.Validate.1 = none ↔ c.Acceptable := by
  unfold Config.Validate Config.Acceptable
  split_ifs with h1 h2
  · simp only [reduceCtorEq, false_iff, not_and]
    intro hp
    omega
  · have : c.Connections = [] := List.length_eq_zero.mp h2
    simp [this]
  · have hne : c.Connections ≠ [] := fun e => h2 (by simp [e])
    have hp : 0 < c.Server.Port := by omega
    dsimp only
    rw [validateLoop_nil_iff]
    simp only [List.not_mem_nil, not_false_eq_true, true_and]
    constructor
    · rintro ⟨hall, hnd⟩
      exact ⟨hp, hne, hnd, hall⟩
    · rintro ⟨_, _, hnd, hall⟩
      exact ⟨hall, hnd⟩

theorem validate_error_of_not_nil (c : Config) (h : ¬ c.Validate.1 = none) :
    ∃ err, c.Validate.1 = some err := by
  cases hv : c.Validate.1 with
  | none => exact absurd hv h
  | some err => exact ⟨err, rfl⟩

theorem amqpFormat_data : ("amqp://%s:%s@%s:%d/%s" : String).data
    = ['a', 'm', 'q', 'p', ':', '/', '/', '%', 's', ':', '%', 's', '@', '%', 's', ':', '%', 'd',
        '/', '%', 's'] := rfl

/-! ## Claims on the configuration -/

/-- C11: when two entries of `Connections` have the same ID, `Validate`
returns an error, and `Load` of a file that parses to such a configuration
fails. -/
theorem validate_rejects_duplicate_ids (c : Config) (i j : Nat) (a b : ConnectionConfig)
    (hij : i < j) (ha : c.Connections[i]? = some a) (hb : c.Connections[j]? = some b)
    (hid : a.ID = b.ID) :
    (∃ err, c.Validate.1 = some err) ∧
    ∀ (data : List Nat) (unmarshal : List Nat → Except GoError Config),
      unmarshal data = .ok c → ∃ err, Load (.ok data) unmarshal = .error err := by
  have herr : ∃ err, c.Validate.1 = some err := by
    apply validate_error_of_not_nil
    intro hnil
    have hnd := ((validate_nil_iff c).mp hnil).2.2.1
    have hj : j < (c.Connections.map ConnectionConfig.ID).length := by
      rw [List.length_map]
      exact (List.getElem?_eq_some.mp hb).1
    refine List.nodup_iff_getElem?_ne_getElem?.mp hnd i j hij hj ?_
    simp [List.getElem?_map, ha, hb, hid]
  refine ⟨herr, ?_⟩
  intro data unmarshal hu
  obtain ⟨err, he⟩ := herr
  refine ⟨err, ?_⟩
  unfold Load
  simp only [hu]
  cases hv : c.Validate with
  | mk e cfg =>
    rw [hv] at he
    simp only at he
    subst he
    rfl

theorem validate_rejects_duplicate_ids_witness :
    (∃ err, (Config.Validate
        { Server := { Port := 8080 },
          Connections := [(sampleConnection "A").Config, (sampleConnection "B").Config,
            (sampleConnection "A").Config] }).1 = some err) ∧
    ∀ (data : List Nat) (unmarshal : List Nat → Except GoError Config),
      unmarshal data = .ok
        { Server := { Port := 8080 },
          Connections := [(sampleConnection "A").Config, (sampleConnection "B").Config,
            (sampleConnection "A").Config] } →
      ∃ err, Load (.ok data) unmarshal = .error err :=
  validate_rejects_duplicate_ids _ 0 2 (sampleConnection "A").Config
    (sampleConnection "A").Config (by decide) rfl rfl rfl

/-- C12: `Validate` returns nil exactly when the server port is positive, there
is at least one connection, the connection IDs are non-empty and pairwise
distinct, and every connection has a non-empty host, a positive port, a
positive HTTP port and a non-empty user name; in every other case it returns
an error. -/
theorem validate_accepts_iff (c : Config) :
    (c.Validate.1 = none ↔
      (0 < c.Server.Port ∧ c.Connections ≠ [] ∧
        (c.Connections.map ConnectionConfig.ID).Nodup ∧
        ∀ conn ∈ c.Connections, conn.ID ≠ "" ∧ conn.Host ≠ "" ∧ 0 < conn.Port ∧
          0 < conn.HTTPPort ∧ conn.Username ≠ "")) ∧
    ((∃ err, c.Validate.1 = some err) ↔ ¬ c.Acceptable) := by
  refine ⟨validate_nil_iff c, ?_⟩
  constructor
  · rintro ⟨err, he⟩ hacc
    rw [(validate_nil_iff c).mpr hacc] at he
    cases he
  · intro hna
    exact validate_error_of_not_nil c (fun hnil => hna ((validate_nil_iff c).mp hnil))

/-- C13: `AMQPURL` is `amqp://` followed by the user name, a colon, the
password, `@`, the host, a colon, the port in decimal, a slash and the vhost,
where an empty vhost is replaced by `/`; so an empty vhost and the vhost `/`
give the same URL. -/
theorem amqpurl_format (c : ConnectionConfig) :
    c.AMQPURL = "amqp://" ++ c.Username ++ ":" ++ c.Password ++ "@" ++ c.Host ++ ":" ++
        toString c.Port ++ "/" ++ (if c.VHost = "" then "/" else c.VHost) ∧
    ConnectionConfig.AMQPURL { c with VHost := "" }
      = ConnectionConfig.AMQPURL { c with VHost := "/" } := by
  have key : ∀ d : ConnectionConfig,
      d.AMQPURL = "amqp://" ++ d.Username ++ ":" ++ d.Password ++ "@" ++ d.Host ++ ":" ++
        toString d.Port ++ "/" ++ (if d.VHost = "" then "/" else d.VHost) := by
    intro d
    unfold ConnectionConfig.AMQPURL Sprintf
    apply String.ext
    rw [amqpFormat_data]
    simp [sprintfChars, FmtArg.render, String.data_append]
  refine ⟨key c, ?_⟩
  rw [key, key]
  simp

/-! ## Lemmas on the manager and on discovery -/

theorem GoMap.get_eq_none_iff {α : Type} (m : GoMap α) (k : String) :
    m.get k = none ↔ k ∉ m.keys := by
  induction m with
  | nil => simp [GoMap.get, GoMap.keys]
  | cons hd tl ih =>
    obtain ⟨a, b⟩ := hd
    by_cases h : a = k
    · simp [GoMap.get, GoMap.keys, h]
    · have hk : ¬ k = a := fun e => h e.symm
      simp only [GoMap.keys] at ih
      simp [GoMap.get, GoMap.keys, h, hk, ih]

theorem notFoundFormat_data : ("connection not found: %s" : String).data
    = ['c', 'o', 'n', 'n', 'e', 'c', 't', 'i', 'o', 'n', ' ', 'n', 'o', 't', ' ', 'f', 'o', 'u',
        'n', 'd', ':', ' ', '%', 's'] := rfl

theorem sprintf_not_found (id : String) :
    Sprintf "connection not found: %s" [.s id] = "connection not found: " ++ id := by
  unfold Sprintf
  apply String.ext
  rw [notFoundFormat_data]
  simp [sprintfChars, FmtArg.render, String.data_append]

theorem length_flatMap_sum {α β : Type} (l : List α) (f : α → List β) :
    (l.flatMap f).length = (l.map (fun x => (f x).length)).sum := by
  induction l with
  | nil => simp
  | cons hd tl ih => simp [ih]

theorem listStreamsLoop_ok (visits : List (Connection × ApiReply ApiQueue))
    (acc : List Stream) (h : ∀ v ∈ visits, ∃ l, v.1.ListStreams v.2 = .ok l) :
    listStreamsLoop acc visits
      = .ok (acc ++ visits.flatMap (fun v => okList (v.1.ListStreams v.2))) := by
  induction visits generalizing acc with
  | nil => simp [listStreamsLoop]
  | cons hd tl ih =>
    obtain ⟨conn, reply⟩ := hd
    obtain ⟨l, hl⟩ := h (conn, reply) (List.mem_cons_self _ _)
    simp only at hl
    unfold listStreamsLoop
    simp only [hl]
    rw [ih _ (fun v hv => h v (List.mem_cons_of_mem _ hv))]
    simp [hl, okList]

theorem listVHostsLoop_ok (visits : List (Connection × ApiReply (String × ApiReply ApiQueue)))
    (acc : List VHost) (h : ∀ v ∈ visits, ∃ l, v.1.ListVHosts v.2 = .ok l) :
    listVHostsLoop acc visits
      = .ok (acc ++ visits.flatMap (fun v => okList (v.1.ListVHosts v.2))) := by
  induction visits generalizing acc with
  | nil => simp [listVHostsLoop]
  | cons hd tl ih =>
    obtain ⟨conn, reply⟩ := hd
    obtain ⟨l, hl⟩ := h (conn, reply) (List.mem_cons_self _ _)
    simp only at hl
    unfold listVHostsLoop
    simp only [hl]
    rw [ih _ (fun v hv => h v (List.mem_cons_of_mem _ hv))]
    simp [hl, okList]

theorem listStreamsLoop_error (visits : List (Connection × ApiReply ApiQueue))
    (acc : List Stream) (h : ∃ v ∈ visits, ∃ e, v.1.ListStreams v.2 = .error e) :
    ∃ v ∈ visits, ∃ e, v.1.ListStreams v.2 = .error e ∧
      listStreamsLoop acc visits
        = .error (.wrapped (Sprintf "failed to list streams for %s" [.s v.1.ID]) e) := by
  induction visits generalizing acc with
  | nil =>
    obtain ⟨v, hv, _⟩ := h
    cases hv
  | cons hd tl ih =>
    obtain ⟨conn, reply⟩ := hd
    cases hc : conn.ListStreams reply with
    | error e =>
      refine ⟨(conn, reply), List.mem_cons_self _ _, e, hc, ?_⟩
      unfold listStreamsLoop
      simp only [hc]
    | ok l =>
      have htl : ∃ v ∈ tl, ∃ e, v.1.ListStreams v.2 = .error e := by
        obtain ⟨v, hv, e, he⟩ := h
        rcases List.mem_cons.mp hv with hv | hv
        · subst hv
          rw [hc] at he
          cases he
        · exact ⟨v, hv, e, he⟩
      obtain ⟨v, hv, e, he, hloop⟩ := ih (acc ++ l) htl
      refine ⟨v, List.mem_cons_of_mem _ hv, e, he, ?_⟩
      unfold listStreamsLoop
      simp only [hc]
      exact hloop

theorem listVHostsLoop_error (visits : List (Connection × ApiReply (String × ApiReply ApiQueue)))
    (acc : List VHost) (h : ∃ v ∈ visits, ∃ e, v.1.ListVHosts v.2 = .error e) :
    ∃ v ∈ visits, ∃ e, v.1.ListVHosts v.2 = .error e ∧
      listVHostsLoop acc visits
        = .error (.wrapped (Sprintf "failed to list vhosts for %s" [.s v.1.ID]) e) := by
  induction visits generalizing acc with
  | nil =>
    obtain ⟨v, hv, _⟩ := h
    cases hv
  | cons hd tl ih =>
    obtain ⟨conn, reply⟩ := hd
    cases hc : conn.ListVHosts reply with
    | error e =>
      refine ⟨(conn, reply), List.mem_cons_self _ _, e, hc, ?_⟩
      unfold listVHostsLoop
      simp only [hc]
    | ok l =>
      have htl : ∃ v ∈ tl, ∃ e, v.1.ListVHosts v.2 = .error e := by
        obtain ⟨v, hv, e, he⟩ := h
        rcases List.mem_cons.mp hv with hv | hv
        · subst hv
          rw [hc] at he
          cases he
        · exact ⟨v, hv, e, he⟩
      obtain ⟨v, hv, e, he, hloop⟩ := ih (acc ++ l) htl
      refine ⟨v, List.mem_cons_of_mem _ hv, e, he, ?_⟩
      unfold listVHostsLoop
      simp only [hc]
      exact hloop

theorem foldl_streams (connID : String) (qs : List ApiQueue) (acc : List Stream) :
    qs.foldl (fun streams q =>
        if q.QueueType = "stream" then
          streams ++ [{ Name := q.Name, ConnectionID := connID, VHost := q.VHost }]
        else streams) acc
      = acc ++ (qs.filter (fun q => q.QueueType = "stream")).map
          (fun q => { Name := q.Name, ConnectionID := connID, VHost := q.VHost }) := by
  induction qs generalizing acc with
  | nil => simp
  | cons q rest ih =>
    rw [List.foldl_cons, ih]
    by_cases h : q.QueueType = "stream" <;> simp [h]

theorem foldl_vhosts (c : Connection) (items : List (String × ApiReply ApiQueue))
    (acc : List VHost) :
    items.foldl (fun vhosts v =>
        match c.ListStreamsInVHost v.1 v.2 with
        | .error _ => vhosts
        | .ok streams => vhosts ++ [{ Name := v.1, ConnectionID := c.ID, Streams := streams }])
        acc
      = acc ++ items.filterMap (vhostRecord c) := by
  induction items generalizing acc with
  | nil => simp
  | cons v rest ih =>
    rw [List.foldl_cons, ih]
    unfold vhostRecord
    cases hc : c.ListStreamsInVHost v.1 v.2 <;> simp [List.filterMap_cons, hc]

/-! ## Claims on the manager and on discovery -/

/-- C14: `GetConnection` returns a nil connection with the error
`connection not found: <id>` exactly when `id` is not a key of the connection
map, otherwise the stored connection with a nil error; it never returns nil
with a nil error, and on a freshly built manager every id is not found. -/
theorem get_connection_spec (m : Manager) (id : String) :
    (id ∉ m.connections.keys ↔
      m.GetConnection id = (none, some (.base ("connection not found: " ++ id)))) ∧
    (id ∈ m.connections.keys →
      ∃ conn, m.connections.get id = some conn ∧ m.GetConnection id = (some conn, none)) ∧
    m.GetConnection id ≠ (none, none) ∧
    ∀ configs, (NewManager configs).GetConnection id
      = (none, some (.base ("connection not found: " ++ id))) := by
  have hkey := GoMap.get_eq_none_iff m.connections id
  refine ⟨?_, ?_, ?_, ?_⟩
  · unfold Manager.GetConnection
    cases hg : m.connections.get id with
    | none =>
      have : id ∉ m.connections.keys := hkey.mp hg
      simp [this, sprintf_not_found]
    | some conn =>
      have : ¬ id ∉ m.connections.keys := fun h => by
        rw [hkey.mpr h] at hg
        cases hg
      simp [this]
  · intro hin
    unfold Manager.GetConnection
    cases hg : m.connections.get id with
    | none => exact absurd hin (hkey.mp hg)
    | some conn => exact ⟨conn, rfl, rfl⟩
  · unfold Manager.GetConnection
    cases m.connections.get id <;> simp
  · intro configs
    simp [Manager.GetConnection, NewManager, GoMap.get, sprintf_not_found]

theorem get_connection_spec_witness :
    ∃ conn, sampleManager.connections.get "B" = some conn ∧
      sampleManager.GetConnection "B" = (some conn, none) :=
  (get_connection_spec sampleManager "B").2.1 (by decide)

/-- C15: when the discovery call of every visited connection succeeds,
`Manager.ListStreams` and `Manager.ListVHosts` succeed with the concatenation
of the per-connection results, whose length is the sum of their lengths; in
any other visiting order the result is a permutation of it. -/
theorem manager_list_all_succeed (sv : List (Connection × ApiReply ApiQueue))
    (vv : List (Connection × ApiReply (String × ApiReply ApiQueue)))
    (hs : ∀ v ∈ sv, ∃ l, v.1.ListStreams v.2 = .ok l)
    (hv : ∀ v ∈ vv, ∃ l, v.1.ListVHosts v.2 = .ok l) :
    (Manager.ListStreams sv = .ok (sv.flatMap (fun v => okList (v.1.ListStreams v.2))) ∧
      (sv.flatMap (fun v => okList (v.1.ListStreams v.2))).length
        = (sv.map (fun v => (okList (v.1.ListStreams v.2)).length)).sum ∧
      ∀ sv', sv'.Perm sv → ∃ all, Manager.ListStreams sv' = .ok all ∧
        all.Perm (sv.flatMap (fun v => okList (v.1.ListStreams v.2)))) ∧
    (Manager.ListVHosts vv = .ok (vv.flatMap (fun v => okList (v.1.ListVHosts v.2))) ∧
      (vv.flatMap (fun v => okList (v.1.ListVHosts v.2))).length
        = (vv.map (fun v => (okList (v.1.ListVHosts v.2)).length)).sum ∧
      ∀ vv', vv'.Perm vv → ∃ all, Manager.ListVHosts vv' = .ok all ∧
        all.Perm (vv.flatMap (fun v => okList (v.1.ListVHosts v.2)))) := by
  refine ⟨⟨?_, length_flatMap_sum _ _, ?_⟩, ⟨?_, length_flatMap_sum _ _, ?_⟩⟩
  · unfold Manager.ListStreams
    rw [listStreamsLoop_ok sv [] hs]
    simp
  · intro sv' hp
    refine ⟨_, ?_, hp.flatMap_right _⟩
    unfold Manager.ListStreams
    rw [listStreamsLoop_ok sv' [] (fun v hv' => hs v (hp.mem_iff.mp hv'))]
    simp
  · unfold Manager.ListVHosts
    rw [listVHostsLoop_ok vv [] hv]
    simp
  · intro vv' hp
    refine ⟨_, ?_, hp.flatMap_right _⟩
    unfold Manager.ListVHosts
    rw [listVHostsLoop_ok vv' [] (fun v hv' => hv v (hp.mem_iff.mp hv'))]
    simp

theorem manager_list_all_succeed_witness :
    Manager.ListStreams [(sampleConnection "A", .decoded (sampleQueues "/")),
        (sampleConnection "B", .decoded (sampleQueues "/test"))]
      = .ok [{ Name := "s1", ConnectionID := "A", VHost := "/" },
             { Name := "s2", ConnectionID := "A", VHost := "/" },
             { Name := "s1", ConnectionID := "B", VHost := "/test" },
             { Name := "s2", ConnectionID := "B", VHost := "/test" }] :=
  (manager_list_all_succeed
    [(sampleConnection "A", .decoded (sampleQueues "/")),
      (sampleConnection "B", .decoded (sampleQueues "/test"))]
    []
    (by
      intro v hv
      simp only [List.mem_cons, List.mem_singleton, List.not_mem_nil, or_false] at hv
      rcases hv with rfl | rfl <;> exact ⟨_, rfl⟩)
    (by
      intro v hv
      cases hv)).1.1

/-- C16: when the discovery call of at least one connection fails,
`Manager.ListStreams` and `Manager.ListVHosts` fail in every visiting order:
they return no list and the error of a failing connection, wrapped with the
ID of that connection. -/
theorem manager_list_fails_if_any_fails (sv : List (Connection × ApiReply ApiQueue))
    (vv : List (Connection × ApiReply (String × ApiReply ApiQueue))) :
    ((∃ v ∈ sv, ∃ e, v.1.ListStreams v.2 = .error e) →
      ∀ sv', sv'.Perm sv → ∃ v ∈ sv, ∃ e, v.1.ListStreams v.2 = .error e ∧
        Manager.ListStreams sv'
          = .error (.wrapped (Sprintf "failed to list streams for %s" [.s v.1.ID]) e)) ∧
    ((∃ v ∈ vv, ∃ e, v.1.ListVHosts v.2 = .error e) →
      ∀ vv', vv'.Perm vv → ∃ v ∈ vv, ∃ e, v.1.ListVHosts v.2 = .error e ∧
        Manager.ListVHosts vv'
          = .error (.wrapped (Sprintf "failed to list vhosts for %s" [.s v.1.ID]) e)) := by
  constructor
  · rintro ⟨v, hv, e, he⟩ sv' hp
    obtain ⟨w, hw, e', he', hloop⟩ :=
      listStreamsLoop_error sv' [] ⟨v, hp.mem_iff.mpr hv, e, he⟩
    exact ⟨w, hp.mem_iff.mp hw, e', he', hloop⟩
  · rintro ⟨v, hv, e, he⟩ vv' hp
    obtain ⟨w, hw, e', he', hloop⟩ :=
      listVHostsLoop_error vv' [] ⟨v, hp.mem_iff.mpr hv, e, he⟩
    exact ⟨w, hp.mem_iff.mp hw, e', he', hloop⟩

theorem manager_list_fails_if_any_fails_witness :
    ∃ v ∈ [(sampleConnection "A", ApiReply.decoded (sampleQueues "/")),
        (sampleConnection "B", ApiReply.badStatus 500 "")],
      ∃ e, v.1.ListStreams v.2 = .error e ∧
        Manager.ListStreams [(sampleConnection "B", ApiReply.badStatus 500 ""),
            (sampleConnection "A", ApiReply.decoded (sampleQueues "/"))]
          = .error (.wrapped (Sprintf "failed to list streams for %s" [.s v.1.ID]) e) :=
  (manager_list_fails_if_any_fails
    [(sampleConnection "A", ApiReply.decoded (sampleQueues "/")),
      (sampleConnection "B", ApiReply.badStatus 500 "")] []).1
    ⟨(sampleConnection "B", ApiReply.badStatus 500 ""), by simp, _, rfl⟩
    _ (List.Perm.swap _ _ _)

/-- C17: for a decoded vhost list, `Connection.ListVHosts` succeeds and
returns, in the order of the list, one record for each vhost whose stream
listing succeeded, with the name of the vhost, the ID of the connection and
the streams found; a vhost whose stream listing failed is left out and its
error is not returned. -/
theorem list_vhosts_skips_failures (c : Connection)
    (items : List (String × ApiReply ApiQueue)) :
    c.ListVHosts (.decoded items) = .ok (items.filterMap (vhostRecord c)) ∧
    (∀ v streams, c.ListStreamsInVHost v.1 v.2 = .ok streams →
      vhostRecord c v = some { Name := v.1, ConnectionID := c.ID, Streams := streams }) ∧
    (∀ v e, c.ListStreamsInVHost v.1 v.2 = .error e → vhostRecord c v = none) := by
  refine ⟨?_, ?_, ?_⟩
  · unfold Connection.ListVHosts
    simp only
    rw [foldl_vhosts]
    simp
  · intro v streams h
    simp [vhostRecord, h]
  · intro v e h
    simp [vhostRecord, h]

theorem list_vhosts_skips_failures_witness :
    vhostRecord (sampleConnection "A") ("bad", ApiReply.badStatus 401 "") = none :=
  (list_vhosts_skips_failures (sampleConnection "A") []).2.2
    ("bad", ApiReply.badStatus 401 "") _ rfl

/-- C18: for a decoded queue list, `ListStreamsInVHost` (and `ListStreams`)
returns exactly the entries of type `stream`, in their order, each as a
`Stream` with the name and vhost of the entry and the ID of the queried
connection; no entry of another type appears. -/
theorem list_streams_filters (c : Connection) (vhost : String) (qs : List ApiQueue) :
    c.ListStreamsInVHost vhost (.decoded qs)
      = .ok ((qs.filter (fun q => q.QueueType = "stream")).map
          (fun q => { Name := q.Name, ConnectionID := c.ID, VHost := q.VHost })) ∧
    c.ListStreams (.decoded qs)
      = .ok ((qs.filter (fun q => q.QueueType = "stream")).map
          (fun q => { Name := q.Name, ConnectionID := c.ID, VHost := q.VHost })) := by
  constructor
  · unfold Connection.ListStreamsInVHost
    simp only
    rw [foldl_streams]
    simp
  · unfold Connection.ListStreams
    simp only
    rw [foldl_streams]
    simp

/-! ## Lemmas on `Manager.Close` and on the handler -/

theorem close_foldl (visits : List (Connection × Option GoError))
    (st : List GoError × List Connection) :
    visits.foldl (fun (st : List GoError × List Connection) v =>
        match v.2 with
        | some err => (st.1 ++ [err], st.2 ++ [v.1])
        | none => (st.1, st.2 ++ [v.1])) st
      = (st.1 ++ visits.filterMap Prod.snd, st.2 ++ visits.map Prod.fst) := by
  induction visits generalizing st with
  | nil => simp
  | cons v rest ih =>
    obtain ⟨conn, r⟩ := v
    rw [List.foldl_cons, ih]
    cases r <;> simp

theorem joinErrors_infix (errs : List GoError) (e : GoError) (he : e ∈ errs) :
    e.Error.data <:+: joinErrors errs := by
  induction errs with
  | nil => cases he
  | cons hd tl ih =>
    cases tl with
    | nil =>
      have : e = hd := by simpa using he
      subst this
      exact ⟨[], [], by simp [joinErrors]⟩
    | cons b rest =>
      rcases List.mem_cons.mp he with h | h
      · subst h
        exact ⟨[], ' ' :: joinErrors (b :: rest), by simp [joinErrors]⟩
      · obtain ⟨s, t, hst⟩ := ih h
        refine ⟨hd.Error.data ++ ' ' :: s, t, ?_⟩
        have : joinErrors (hd :: b :: rest) = hd.Error.data ++ ' ' :: joinErrors (b :: rest) := by
          simp [joinErrors]
        rw [this, ← hst]
        simp

theorem closeFormat_data : ("errors closing connections: %v" : String).data
    = ['e', 'r', 'r', 'o', 'r', 's', ' ', 'c', 'l', 'o', 's', 'i', 'n', 'g', ' ', 'c', 'o', 'n',
        'n', 'e', 'c', 't', 'i', 'o', 'n', 's', ':', ' ', '%', 'v'] := rfl

theorem close_text_reports (errs : List GoError) (e : GoError) (he : e ∈ errs) :
    e.Error.data <:+: (Sprintf "errors closing connections: %v" [.errs errs]).data := by
  obtain ⟨s, t, hst⟩ := joinErrors_infix errs e he
  unfold Sprintf
  rw [closeFormat_data]
  refine ⟨"errors closing connections: [".data ++ s, t ++ [']'], ?_⟩
  simp only [sprintfChars, FmtArg.render, ← hst]
  simp

theorem getConnection_err_iff (m : Manager) (id : String) :
    ((m.GetConnection id).2 = none ↔ id ∈ m.connections.keys) := by
  have hkey := GoMap.get_eq_none_iff m.connections id
  unfold Manager.GetConnection
  cases hg : m.connections.get id with
  | none =>
    have : id ∉ m.connections.keys := hkey.mp hg
    simp [this]
  | some conn =>
    have : id ∈ m.connections.keys := by
      by_contra h
      rw [hkey.mpr h] at hg
      cases hg
    simp [this]

/-! ## Claims on `Manager.Close` and on the handler -/

/-- C19: `Manager.Close` closes the environment of every visited connection,
whether or not earlier closes failed; it returns nil exactly when every close
succeeded, and otherwise one error whose text is built from all the close
errors and contains the text of each of them. -/
theorem manager_close_spec (visits : List (Connection × Option GoError)) :
    (Manager.Close visits).2 = visits.map Prod.fst ∧
    ((Manager.Close visits).1 = none ↔ ∀ v ∈ visits, v.2 = none) ∧
    ((∃ v ∈ visits, v.2 ≠ none) →
      (Manager.Close visits).1
        = some (.base (Sprintf "errors closing connections: %v"
            [.errs (visits.filterMap Prod.snd)])) ∧
      ∀ v ∈ visits, ∀ e, v.2 = some e →
        e.Error.data
          <:+: (Sprintf "errors closing connections: %v"
            [.errs (visits.filterMap Prod.snd)]).data) := by
  have hnil : visits.filterMap Prod.snd = [] ↔ ∀ v ∈ visits, v.2 = none := by
    simp [List.filterMap_eq_nil_iff]
  refine ⟨?_, ?_, ?_⟩
  · unfold Manager.Close
    simp only [close_foldl]
    split_ifs <;> simp
  · unfold Manager.Close
    simp only [close_foldl, List.nil_append]
    split_ifs with h
    · have hne : visits.filterMap Prod.snd ≠ [] := fun e => by simp [e] at h
      simp only [reduceCtorEq, false_iff]
      exact fun hall => hne (hnil.mpr hall)
    · have : visits.filterMap Prod.snd = [] := by
        cases hl : visits.filterMap Prod.snd with
        | nil => rfl
        | cons a b => simp [hl] at h
      simp only [true_iff]
      exact hnil.mp this
  · rintro ⟨v, hv, hne⟩
    have hpos : (visits.filterMap Prod.snd).length > 0 := by
      apply List.length_pos.mpr
      intro e
      exact hne (hnil.mp e v hv)
    constructor
    · unfold Manager.Close
      simp only [close_foldl, List.nil_append]
      rw [if_pos hpos]
    · intro w hw e he
      apply close_text_reports
      exact List.mem_filterMap.mpr ⟨w, hw, he⟩

theorem manager_close_spec_witness :
    (Manager.Close [(sampleConnection "A", some (.base "broken pipe")),
        (sampleConnection "B", some (.wrapped "closing" (.base "timeout")))]).1
      = some (.base (Sprintf "errors closing connections: %v"
          [.errs [.base "broken pipe", .wrapped "closing" (.base "timeout")]])) :=
  ((manager_close_spec [(sampleConnection "A", some (.base "broken pipe")),
      (sampleConnection "B", some (.wrapped "closing" (.base "timeout")))]).2.2
    ⟨(sampleConnection "A", some (.base "broken pipe")), by simp, by simp⟩).1

/-- C20, as stated, fails: a request whose `offset` parameter is present with
an empty value, which `ParseUint` rejects, is answered with status 200. -/
theorem empty_offset_not_rejected :
    GoMap.get ([("offset", [""])] : GoMap (List String)) "offset" = some [""] ∧
    ParseUint "" = .error ErrSyntax ∧
    (Handler.GetMessages ⟨sampleManager⟩ (sampleRequest "A" [("offset", [""])])
      quietRead).status = 200 := by
  refine ⟨rfl, rfl, rfl⟩

/-- C20, amended: if the first `offset` value is non-empty and rejected by
`ParseUint`, or the first `limit` value is non-empty and rejected by `Atoi`,
the status is 400, whatever the connection id; otherwise, with an absent or
empty offset read as 0 and an absent or empty limit as 10, an unknown
connection id gives 404, a failed read 500 and a successful read 200 with the
batch. -/
theorem get_messages_status (h : Handler) (req : MessagesRequest) (sc : ReadScenario) :
    (((queryGet req.query "offset" ≠ "" ∧ ∃ e, ParseUint (queryGet req.query "offset") = .error e) ∨
      (queryGet req.query "limit" ≠ "" ∧ ∃ e, Atoi (queryGet req.query "limit") = .error e)) →
      (h.GetMessages req sc).status = 400) ∧
    (∀ offset limit,
      ((queryGet req.query "offset" = "" ∧ offset = 0) ∨
        (queryGet req.query "offset" ≠ "" ∧ ParseUint (queryGet req.query "offset") = .ok offset)) →
      ((queryGet req.query "limit" = "" ∧ limit = 10) ∨
        (queryGet req.query "limit" ≠ "" ∧ Atoi (queryGet req.query "limit") = .ok limit)) →
      (req.connection_id ∉ h.manager.connections.keys → (h.GetMessages req sc).status = 404) ∧
      (req.connection_id ∈ h.manager.connections.keys →
        (∀ e, (ReadMessagesFromVHost req.vhost offset limit sc).1 = .error e →
          (h.GetMessages req sc).status = 500) ∧
        (∀ b, (ReadMessagesFromVHost req.vhost offset limit sc).1 = .ok b →
          h.GetMessages req sc = { status := 200, body := .batch b }))) := by
  constructor
  · rintro (⟨hne, e, he⟩ | ⟨hne, e, he⟩)
    · simp [Handler.GetMessages, hne, he]
    · unfold Handler.GetMessages
      dsimp only
      split
      · rfl
      · simp [hne, he]
  · intro offset limit ho hl
    have ho' : (if queryGet req.query "offset" ≠ "" then ParseUint (queryGet req.query "offset")
        else .ok 0) = .ok offset := by
      rcases ho with ⟨h1, h2⟩ | ⟨h1, h2⟩
      · simp [h1, h2]
      · simp [h1, h2]
    have hl' : (if queryGet req.query "limit" ≠ "" then Atoi (queryGet req.query "limit")
        else .ok 10) = .ok limit := by
      rcases hl with ⟨h1, h2⟩ | ⟨h1, h2⟩
      · simp [h1, h2]
      · simp [h1, h2]
    have hconn := getConnection_err_iff h.manager req.connection_id
    constructor
    · intro hnot
      unfold Handler.GetMessages
      simp only [ho', hl']
      cases hc : (h.manager.GetConnection req.connection_id).2 with
      | none => exact absurd (hconn.mp hc) hnot
      | some err => rfl
    · intro hin
      have hc := hconn.mpr hin
      constructor
      · intro e he
        unfold Handler.GetMessages
        simp only [ho', hl', hc, he]
      · intro b hb
        unfold Handler.GetMessages
        simp only [ho', hl', hc, hb]

theorem get_messages_status_witness :
    (Handler.GetMessages ⟨sampleManager⟩ (sampleRequest "Z" [("offset", ["abc"])])
      quietRead).status = 400 :=
  (get_messages_status ⟨sampleManager⟩ (sampleRequest "Z" [("offset", ["abc"])]) quietRead).1
    (Or.inl ⟨by decide, ErrSyntax, rfl⟩)

/-! ## Lemmas on the subscription, the completion signal and the releases -/

theorem subscriptionOffset_of_lt (offset : Nat) (h : offset < 2 ^ 63) :
    subscriptionOffset offset = (offset : Int) := by
  unfold subscriptionOffset toInt64
  have hmod : offset % 2 ^ 64 = offset := Nat.mod_eq_of_lt (by omega)
  simp only [hmod]
  rw [if_pos h]

theorem readStep_full (limit : Int) (st : WaitState) (d : Delivery)
    (hfull : (st.messages.length : Int) ≥ limit) :
    readStep limit st (.deliver d) = st := by
  simp [readStep, consumerCallback, hfull]

theorem foldl_deliver_full (limit : Int) (ds : List Delivery) (st : WaitState)
    (hfull : (st.messages.length : Int) ≥ limit) :
    (ds.map ReadEvent.deliver).foldl (readStep limit) st = st := by
  induction ds with
  | nil => rfl
  | cons d rest ih =>
    rw [List.map_cons, List.foldl_cons, readStep_full limit st d hfull]
    exact ih

/-! ## Claims on the subscription, the completion signal and the releases -/

/-- C21, at the failing input: the requested offset `2^63`, which the handler
accepts as an unsigned 64-bit number, is handed to the stream client as
`-2^63`, so the subscription does not start at the requested offset. -/
theorem subscription_offset_wraps :
    ParseUint "9223372036854775808" = .ok 9223372036854775808 ∧
    subscriptionOffset 9223372036854775808 = -9223372036854775808 ∧
    subscriptionOffset 9223372036854775808 ≠ ((9223372036854775808 : Nat) : Int) := by
  refine ⟨rfl, by decide, by decide⟩

/-- C22, at the failing run: `done` has capacity 0, so with limit 1 a delivery
handled before the caller reaches the `select` finds no receiver and its
signal is dropped although the channel holds no pending value; the limit is
reached, the caller then waits without having been signalled, and no later
delivery signals it. -/
theorem completion_signal_lost :
    initialWait.done.capacity = 0 ∧
    (trySend initialWait.done).2 = false ∧
    (runRead (clampLimit 1) [.deliver (deliveryAt 0), .startWait]).messages.length = 1 ∧
    (runRead (clampLimit 1) [.deliver (deliveryAt 0), .startWait]).signalled = false ∧
    ∀ ds : List Delivery,
      (runRead (clampLimit 1)
        ([.deliver (deliveryAt 0), .startWait] ++ ds.map ReadEvent.deliver)).signalled
        = false := by
  refine ⟨rfl, rfl, by decide, by decide, ?_⟩
  intro ds
  unfold runRead
  rw [List.foldl_append]
  rw [foldl_deliver_full (clampLimit 1) ds _ (by decide)]
  decide

/-- C23: once the environment is opened, every way out of
`ReadMessagesFromVHost` closes the environment exactly once, as the last
release; the consumer is closed exactly once, before the environment, when it
was created, and never when its creation failed. -/
theorem releases_exactly_once (vhost : String) (offset : Nat) (limit : Int) (sc : ReadScenario)
    (henv : sc.envErr = none) :
    (ReadMessagesFromVHost vhost offset limit sc).2.count Release.envClose = 1 ∧
    (sc.consumerErr = none →
      (ReadMessagesFromVHost vhost offset limit sc).2.count Release.consumerClose = 1 ∧
      (ReadMessagesFromVHost vhost offset limit sc).2 = [.consumerClose, .envClose]) ∧
    (sc.consumerErr ≠ none →
      (ReadMessagesFromVHost vhost offset limit sc).2.count Release.consumerClose = 0 ∧
      (ReadMessagesFromVHost vhost offset limit sc).2 = [.envClose]) := by
  obtain ⟨envErr, consumerErr, deliveries, event⟩ := sc
  simp only at henv
  subst henv
  cases consumerErr with
  | some err => simp [ReadMessagesFromVHost]
  | none => cases event <;> simp [ReadMessagesFromVHost]

theorem releases_exactly_once_witness :
    (ReadMessagesFromVHost "/" 0 10
      ⟨none, none, [deliveryAt 3], .ctxDone (.base "context canceled")⟩).2.count
        Release.envClose = 1 :=
  (releases_exactly_once "/" 0 10
    ⟨none, none, [deliveryAt 3], .ctxDone (.base "context canceled")⟩ rfl).1

/-! ## Lemmas on the effect of `Validate` -/

theorem validateLoop_snd (i : Nat) (seen : List String) (conns : List ConnectionConfig)
    (h : (validateLoop i seen conns).1 = none) :
    (validateLoop i seen conns).2 = conns.map withDefaultStreamPort := by
  induction conns generalizing i seen with
  | nil => rfl
  | cons conn rest ih =>
    unfold validateLoop at h ⊢
    split_ifs at h ⊢ with h1 h2 h3 h4 h5 h6 h7
    · dsimp only at h ⊢
      rw [ih _ _ h, List.map_cons]
      congr 1
      unfold withDefaultStreamPort
      have : ¬ 0 < conn.StreamPort := by omega
      simp [this]
    · dsimp only at h ⊢
      rw [ih _ _ h, List.map_cons]
      congr 1
      unfold withDefaultStreamPort
      have : 0 < conn.StreamPort := by omega
      simp [this]

theorem withDefaultStreamPort_idem (conn : ConnectionConfig) :
    withDefaultStreamPort (withDefaultStreamPort conn) = withDefaultStreamPort conn := by
  unfold withDefaultStreamPort
  by_cases h : 0 < conn.StreamPort <;> simp [h]

theorem acceptable_withDefault (c : Config) (h : c.Acceptable) :
    Config.Acceptable
      { Server := c.Server, Connections := c.Connections.map withDefaultStreamPort } := by
  obtain ⟨h1, h2, h3, h4⟩ := h
  refine ⟨h1, ?_, ?_, ?_⟩
  · simpa using h2
  · have : (c.Connections.map withDefaultStreamPort).map ConnectionConfig.ID
        = c.Connections.map ConnectionConfig.ID := by
      rw [List.map_map]
      rfl
    simp only [this]
    exact h3
  · intro conn hconn
    obtain ⟨orig, horig, rfl⟩ := List.mem_map.mp hconn
    exact h4 orig horig

theorem validate_snd (c : Config) (h : c.Validate.1 = none) :
    c.Validate.2 = { Server := c.Server, Connections := c.Connections.map withDefaultStreamPort } := by
  unfold Config.Validate at h ⊢
  split_ifs at h ⊢ with h1 h2
  dsimp only at h ⊢
  rw [validateLoop_snd 0 [] c.Connections h]

/-! ## Claims on the effect of `Validate` -/

/-- C24: when `Validate` succeeds, the configuration it leaves has every
connection with its stream port defaulted (the original port if positive,
5552 otherwise) and every other field as before; a second `Validate` on the
result succeeds and leaves it unchanged. -/
theorem validate_defaults_stream_port (c : Config) (h : c.Validate.1 = none) :
    c.Validate.2
      = { Server := c.Server, Connections := c.Connections.map withDefaultStreamPort } ∧
    (∀ conn : ConnectionConfig,
      (withDefaultStreamPort conn).StreamPort
        = (if 0 < conn.StreamPort then conn.StreamPort else 5552) ∧
      { withDefaultStreamPort conn with StreamPort := conn.StreamPort } = conn) ∧
    c.Validate.2.Validate = (none, c.Validate.2) := by
  have hsnd := validate_snd c h
  refine ⟨hsnd, fun conn => ⟨rfl, rfl⟩, ?_⟩
  have hacc := acceptable_withDefault c ((validate_nil_iff c).mp h)
  rw [hsnd]
  have hnil := (validate_nil_iff _).mpr hacc
  have hsnd2 := validate_snd _ hnil
  simp only [List.map_map] at hsnd2
  have hidem : (withDefaultStreamPort ∘ withDefaultStreamPort) = withDefaultStreamPort := by
    funext conn
    exact withDefaultStreamPort_idem conn
  rw [hidem] at hsnd2
  exact Prod.ext hnil hsnd2

theorem validate_defaults_stream_port_witness :
    (Config.Validate
      { Server := { Port := 8080 },
        Connections := [{ (sampleConnection "A").Config with StreamPort := 0 },
          { (sampleConnection "B").Config with StreamPort := 6000 }] }).2
      = { Server := { Port := 8080 },
          Connections := [{ (sampleConnection "A").Config with StreamPort := 0 },
            { (sampleConnection "B").Config with StreamPort := 6000 }].map
              withDefaultStreamPort } :=
  (validate_defaults_stream_port
    { Server := { Port := 8080 },
      Connections := [{ (sampleConnection "A").Config with StreamPort := 0 },
        { (sampleConnection "B").Config with StreamPort := 6000 }] } (by decide)).1

/-! ## Lemmas on the iteration order of the containers -/

theorem PropValue.same_refl (v : PropValue) : v.Same v := by
  cases v <;> simp [PropValue.Same]

theorem sameEntry_refl (e : Option PropValue) : SameEntry e e := by
  cases e with
  | none => trivial
  | some v => exact PropValue.same_refl v

theorem sameProps_refl (p : GoMap PropValue) : SameProps p p :=
  fun k => sameEntry_refl (p.get k)

theorem sameProps_set (p q : GoMap PropValue) (key : String) (v w : PropValue)
    (hpq : SameProps p q) (hvw : v.Same w) : SameProps (p.set key v) (q.set key w) := by
  intro k
  rw [GoMap.get_set, GoMap.get_set]
  by_cases h : key = k
  · simp only [h, if_true]
    exact hvw
  · simp only [h, if_false]
    exact hpq k

theorem nested_get_unchanged (entries : List (AnnKey × Value)) (acc : GoMap Value) (k : String)
    (h : ∀ kv ∈ entries, keyText kv.1 ≠ k) :
    (entries.foldl (fun acc kv => acc.set (keyText kv.1) kv.2) acc).get k = acc.get k := by
  induction entries generalizing acc with
  | nil => rfl
  | cons hd tl ih =>
    rw [List.foldl_cons, ih _ (fun kv hkv => h kv (List.mem_cons_of_mem _ hkv))]
    exact GoMap.get_set_ne _ _ _ _ (h hd (List.mem_cons_self _ _))

theorem nested_get_of_mem (entries : List (AnnKey × Value)) (acc : GoMap Value)
    (kv : AnnKey × Value) (hd : (entries.map (fun e => keyText e.1)).Nodup)
    (hmem : kv ∈ entries) :
    (entries.foldl (fun acc e => acc.set (keyText e.1) e.2) acc).get (keyText kv.1)
      = some kv.2 := by
  induction entries generalizing acc with
  | nil => cases hmem
  | cons e tl ih =>
    rw [List.map_cons, List.nodup_cons] at hd
    rw [List.foldl_cons]
    rcases List.mem_cons.mp hmem with h | h
    · subst h
      rw [nested_get_unchanged]
      · exact GoMap.get_set_self _ _ _
      · intro e he heq
        exact hd.1 (List.mem_map.mpr ⟨e, he, heq⟩)
    · exact ih _ hd.2 h

theorem nested_get_perm (a b : List (AnnKey × Value)) (hperm : a.Perm b)
    (hd : (a.map (fun e => keyText e.1)).Nodup) (k : String) :
    (a.foldl (fun (acc : GoMap Value) e => acc.set (keyText e.1) e.2) []).get k
      = (b.foldl (fun (acc : GoMap Value) e => acc.set (keyText e.1) e.2) []).get k := by
  have hdb : (b.map (fun e => keyText e.1)).Nodup := (hperm.map _).nodup_iff.mp hd
  by_cases h : ∃ kv ∈ a, keyText kv.1 = k
  · obtain ⟨kv, hkv, rfl⟩ := h
    rw [nested_get_of_mem a [] kv hd hkv,
      nested_get_of_mem b [] kv hdb (hperm.mem_iff.mp hkv)]
  · have ha : ∀ kv ∈ a, keyText kv.1 ≠ k := fun kv hkv heq => h ⟨kv, hkv, heq⟩
    have hb : ∀ kv ∈ b, keyText kv.1 ≠ k := fun kv hkv => ha kv (hperm.mem_iff.mpr hkv)
    rw [nested_get_unchanged a [] k ha, nested_get_unchanged b [] k hb]

theorem scan_fst (entries : List (AnnKey × Value)) (st : GoMap Value × GoMap PropValue) :
    (entries.foldl scanStep st).1
      = entries.foldl (fun acc e => acc.set (keyText e.1) e.2) st.1 := by
  induction entries generalizing st with
  | nil => rfl
  | cons hd tl ih =>
    rw [List.foldl_cons, List.foldl_cons, ih]
    rfl

theorem filter_unique {α : Type} (l : List α) (f : α → Bool) (h : (l.filter f).length ≤ 1)
    (x y : α) (hx : x ∈ l) (hy : y ∈ l) (fx : f x = true) (fy : f y = true) : x = y := by
  have hx' : x ∈ l.filter f := List.mem_filter.mpr ⟨hx, fx⟩
  have hy' : y ∈ l.filter f := List.mem_filter.mpr ⟨hy, fy⟩
  cases hl : l.filter f with
  | nil =>
    rw [hl] at hx'
    cases hx'
  | cons a tl =>
    rw [hl] at h hx' hy'
    have htl : tl = [] := by
      cases tl with
      | nil => rfl
      | cons b r => simp at h
    subst htl
    rw [List.mem_singleton] at hx' hy'
    rw [hx', hy']

theorem scan_routing_perm (a b : List (AnnKey × Value)) (p q : GoMap PropValue)
    (hperm : a.Perm b)
    (hr : (a.filter (fun kv => isRoutingKey (keyText kv.1))).length ≤ 1)
    (hpq : SameEntry (p.get "routing_key") (q.get "routing_key")) :
    SameEntry ((scanAnnotations a p).2.get "routing_key")
      ((scanAnnotations b q).2.get "routing_key") := by
  unfold scanAnnotations
  rcases scan_get_routing a ([], p) with ⟨hna, hga⟩ | ⟨x, hx, fx, hga⟩
  · rcases scan_get_routing b ([], q) with ⟨_, hgb⟩ | ⟨y, hy, fy, _⟩
    · rw [hga, hgb]
      exact hpq
    · have := hna y (hperm.mem_iff.mpr hy)
      rw [fy] at this
      cases this
  · rcases scan_get_routing b ([], q) with ⟨hnb, _⟩ | ⟨y, hy, fy, hgb⟩
    · have := hnb x (hperm.mem_iff.mp hx)
      rw [fx] at this
      cases this
    · have hxy : x = y :=
        filter_unique a (fun kv => isRoutingKey (keyText kv.1)) hr x y hx
          (hperm.mem_iff.mpr hy) fx fy
      rw [hga, hgb, hxy]
      exact sameEntry_refl _

theorem scan_same (a b : List (AnnKey × Value)) (p q : GoMap PropValue) (key : String)
    (hperm : a.Perm b)
    (hd : (a.map (fun e => keyText e.1)).Nodup)
    (hr : (a.filter (fun kv => isRoutingKey (keyText kv.1))).length ≤ 1)
    (hpq : SameProps p q) :
    SameProps ((scanAnnotations a p).2.set key (.map (scanAnnotations a p).1))
      ((scanAnnotations b q).2.set key (.map (scanAnnotations b q).1)) := by
  intro k
  rw [GoMap.get_set, GoMap.get_set]
  by_cases h : key = k
  · simp only [h, if_true]
    intro k'
    unfold scanAnnotations
    rw [scan_fst, scan_fst]
    exact nested_get_perm a b hperm hd k'
  · simp only [h, if_false]
    by_cases hk : k = "routing_key"
    · subst hk
      exact scan_routing_perm a b p q hperm hr (hpq "routing_key")
    · unfold scanAnnotations
      rw [scan_get_other a _ k hk, scan_get_other b _ k hk]
      exact hpq k

theorem addAnnotations_same (m₁ m₂ : AmqpMessage) (p q : GoMap PropValue)
    (hA : SameUpToOrder m₁.Annotations m₂.Annotations)
    (hd : DistinctTexts m₁.Annotations) (hr : AtMostOneRoutingKey m₁.Annotations)
    (hpq : SameProps p q) :
    SameProps (addAnnotations m₁ p) (addAnnotations m₂ q) := by
  unfold addAnnotations
  unfold SameUpToOrder at hA
  unfold DistinctTexts at hd
  unfold AtMostOneRoutingKey at hr
  cases h₁ : m₁.Annotations with
  | none =>
    cases h₂ : m₂.Annotations with
    | none => exact hpq
    | some b => simp [h₁, h₂] at hA
  | some a =>
    cases h₂ : m₂.Annotations with
    | none => simp [h₁, h₂] at hA
    | some b =>
      rw [h₁, h₂] at hA
      rw [h₁] at hd hr
      have hperm : a.Perm b := hA
      have hlen : a.length = b.length := hperm.length_eq
      dsimp only
      by_cases hpos : a.length > 0
      · rw [if_pos hpos, if_pos (by omega)]
        exact scan_same a b p q _ hperm hd hr hpq
      · rw [if_neg hpos, if_neg (by omega)]
        exact hpq

theorem addDeliveryAnnotations_same (m₁ m₂ : AmqpMessage) (p q : GoMap PropValue)
    (hA : SameUpToOrder m₁.DeliveryAnnotations m₂.DeliveryAnnotations)
    (hd : DistinctTexts m₁.DeliveryAnnotations)
    (hr : AtMostOneRoutingKey m₁.DeliveryAnnotations)
    (hpq : SameProps p q) :
    SameProps (addDeliveryAnnotations m₁ p) (addDeliveryAnnotations m₂ q) := by
  unfold addDeliveryAnnotations
  unfold SameUpToOrder at hA
  unfold DistinctTexts at hd
  unfold AtMostOneRoutingKey at hr
  cases h₁ : m₁.DeliveryAnnotations with
  | none =>
    cases h₂ : m₂.DeliveryAnnotations with
    | none => exact hpq
    | some b => simp [h₁, h₂] at hA
  | some a =>
    cases h₂ : m₂.DeliveryAnnotations with
    | none => simp [h₁, h₂] at hA
    | some b =>
      rw [h₁, h₂] at hA
      rw [h₁] at hd hr
      have hperm : a.Perm b := hA
      have hlen : a.length = b.length := hperm.length_eq
      dsimp only
      by_cases hpos : a.length > 0
      · rw [if_pos hpos, if_pos (by omega)]
        exact scan_same a b p q _ hperm hd hr hpq
      · rw [if_neg hpos, if_neg (by omega)]
        exact hpq

theorem addApplicationProperties_same (m₁ m₂ : AmqpMessage) (p q : GoMap PropValue)
    (hApp : m₁.ApplicationProperties = m₂.ApplicationProperties) (hpq : SameProps p q) :
    SameProps (addApplicationProperties m₁ p) (addApplicationProperties m₂ q) := by
  unfold addApplicationProperties
  rw [← hApp]
  cases m₁.ApplicationProperties with
  | none => exact hpq
  | some entries =>
    dsimp only
    split_ifs
    · exact sameProps_set p q _ _ _ hpq (PropValue.same_refl _)
    · exact hpq

theorem addFooter_same (m₁ m₂ : AmqpMessage) (p q : GoMap PropValue)
    (hF : SameUpToOrder m₁.Footer m₂.Footer) (hd : DistinctTexts m₁.Footer)
    (hpq : SameProps p q) :
    SameProps (addFooter m₁ p) (addFooter m₂ q) := by
  unfold addFooter
  unfold SameUpToOrder at hF
  unfold DistinctTexts at hd
  cases h₁ : m₁.Footer with
  | none =>
    cases h₂ : m₂.Footer with
    | none => exact hpq
    | some b => simp [h₁, h₂] at hF
  | some a =>
    cases h₂ : m₂.Footer with
    | none => simp [h₁, h₂] at hF
    | some b =>
      rw [h₁, h₂] at hF
      rw [h₁] at hd
      have hperm : a.Perm b := hF
      have hlen : a.length = b.length := hperm.length_eq
      dsimp only
      by_cases hpos : a.length > 0
      · rw [if_pos hpos, if_pos (by omega)]
        apply sameProps_set p q _ _ _ hpq
        intro k
        exact nested_get_perm a b hperm hd k
      · rw [if_neg hpos, if_neg (by omega)]
        exact hpq

theorem base_props_eq (m₁ m₂ : AmqpMessage) (hP : m₁.Properties = m₂.Properties)
    (hH : m₁.Header = m₂.Header) :
    addHeader m₁ (addProperties m₁ []) = addHeader m₂ (addProperties m₂ []) := by
  unfold addHeader addProperties
  rw [hP, hH]

/-! ## Claims on the iteration order of the containers -/

/-- C25, as stated, fails: a message whose annotations hold `x-routing-key`
with value `a` and `routing-key` with value `b` is normalized with
`routing_key = b` when the entries are visited in this order and with
`routing_key = a` when they are visited in the other order. -/
theorem routing_key_depends_on_order :
    SameUpToOrder
      (twoKeyMessage [(.sym "x-routing-key", .str "a"), (.sym "routing-key", .str "b")]).Annotations
      (twoKeyMessage [(.sym "routing-key", .str "b"), (.sym "x-routing-key", .str "a")]).Annotations ∧
    (extractProps (twoKeyMessage
        [(.sym "x-routing-key", .str "a"), (.sym "routing-key", .str "b")])).get "routing_key"
      = some (.val (.str "b")) ∧
    (extractProps (twoKeyMessage
        [(.sym "routing-key", .str "b"), (.sym "x-routing-key", .str "a")])).get "routing_key"
      = some (.val (.str "a")) ∧
    ¬ SameProps
      (extractProps (twoKeyMessage
        [(.sym "x-routing-key", .str "a"), (.sym "routing-key", .str "b")]))
      (extractProps (twoKeyMessage
        [(.sym "routing-key", .str "b"), (.sym "x-routing-key", .str "a")])) := by
  refine ⟨List.Perm.swap _ _ _, rfl, rfl, ?_⟩
  intro h
  have := h "routing_key"
  have e₁ : (extractProps (twoKeyMessage
      [(.sym "x-routing-key", .str "a"), (.sym "routing-key", .str "b")])).get "routing_key"
      = some (.val (.str "b")) := rfl
  have e₂ : (extractProps (twoKeyMessage
      [(.sym "routing-key", .str "b"), (.sym "x-routing-key", .str "a")])).get "routing_key"
      = some (.val (.str "a")) := rfl
  rw [e₁, e₂] at this
  simp [SameEntry, PropValue.Same] at this

/-- C25, amended: two iterations of one raw message, differing only in the
order in which the entries of the message annotations, the delivery
annotations and the footer are visited, give the same normalized mapping
(same promoted routing key, same nested mappings), provided that in each of
these containers the keys have pairwise distinct texts and that in each of the
two annotation containers at most one key is `x-routing-key` or
`routing-key`. -/
theorem normalization_order_independent (m₁ m₂ : AmqpMessage)
    (hP : m₁.Properties = m₂.Properties) (hH : m₁.Header = m₂.Header)
    (hApp : m₁.ApplicationProperties = m₂.ApplicationProperties)
    (hA : SameUpToOrder m₁.Annotations m₂.Annotations)
    (hD : SameUpToOrder m₁.DeliveryAnnotations m₂.DeliveryAnnotations)
    (hF : SameUpToOrder m₁.Footer m₂.Footer)
    (dA : DistinctTexts m₁.Annotations) (rA : AtMostOneRoutingKey m₁.Annotations)
    (dD : DistinctTexts m₁.DeliveryAnnotations)
    (rD : AtMostOneRoutingKey m₁.DeliveryAnnotations)
    (dF : DistinctTexts m₁.Footer) :
    SameProps (extractProps m₁) (extractProps m₂) := by
  unfold extractProps
  dsimp only
  apply addFooter_same m₁ m₂ _ _ hF dF
  apply addApplicationProperties_same m₁ m₂ _ _ hApp
  apply addDeliveryAnnotations_same m₁ m₂ _ _ hD dD rD
  apply addAnnotations_same m₁ m₂ _ _ hA dA rA
  rw [base_props_eq m₁ m₂ hP hH]
  exact sameProps_refl _

theorem normalization_order_independent_witness :
    SameProps
      (extractProps { routedMessage with
        Footer := some [(.sym "sig", .bytes [1, 2]), (.num 3, .str "x")] })
      (extractProps { routedMessage with
        DeliveryAnnotations := some [(.sym "routing-key", .str "c.d"), (.num 7, .int 1)]
        Footer := some [(.num 3, .str "x"), (.sym "sig", .bytes [1, 2])] }) :=
  normalization_order_independent _ _ rfl rfl rfl (List.Perm.refl _) (List.Perm.swap _ _ _)
    (List.Perm.swap _ _ _) (by unfold DistinctTexts; decide)
    (by unfold AtMostOneRoutingKey; decide) (by unfold DistinctTexts; decide)
    (by unfold AtMostOneRoutingKey; decide) (by unfold DistinctTexts; decide)

end RmqStreamViewer
